import Mathlib

/-!
Verification of the zpool_prometheus metric encoder.

This file is a shallow embedding, in Lean, of the encoding pipeline of
zpool_prometheus.c: the per-run metric-name registry (print_help_type),
the two value encoders (print_prom_u64 / print_prom_d), the label
builders (escape_string, get_vdev_name, get_vdev_desc), the histogram
encoders (print_vdev_latency_stats, print_vdev_size_stats), the scalar
encoders (print_summary_stats, print_queue_stats, print_scan_status),
the recursive tree walk (print_recursive_stats) and the per-pool driver
(print_stats, zpool_iter).

Modelling conventions:
- stdout is modelled as a list of structured `Line` values, emitted in
  order; stderr messages are not modelled (no claim depends on them);
- uint64 values are Nat; where the C code masks or wraps, the model
  masks or wraps explicitly (the 52-bit significand mask of
  print_prom_u64, the uint64 subtraction in the scan-status code);
- C doubles are modelled as Option Rat: `none` is the non-finite result
  of a floating division by zero, finite values are exact rationals;
- nvlist lookups are modelled as association-list / Option lookups, and
  label snprintf results as structured `PLabel` values (the numeric text
  of a latency bucket boundary is kept as the bucket index);
- the one value the C program reads without ever writing (the local
  `pass_scanned` of print_scan_status) is threaded through the model as
  an explicit unconstrained parameter named `junk`;
- external libzfs facilities (zpool_refresh_stats, zpool_state_to_name,
  time(NULL)) are kept symbolic: the wall clock is a `now` parameter and
  zpool_state_to_name is represented by storing its two arguments in the
  label value.
-/

namespace ZP

/-- The bound of a histogram bucket line: a finite power-of-two boundary
(index j stands for the boundary 2^j in the histogram's native unit) or
the +Inf bucket. -/
inductive LeBound where
  | finite (j : Nat)
  | inf
deriving DecidableEq, Repr

/-- A rendered Prometheus label set, as built by the snprintf calls of the
C code.  `scanLabel` is name="pool",state="scanstate"; `sumLabel` is
name="pool",state="zpool_state_to_name(state,aux)",vdevdesc (the external
zpool_state_to_name is kept symbolic by storing its arguments);
`vdevLabel` is name="pool",vdevdesc; `leLabel` additionally carries the
le="..." bound. -/
inductive PLabel where
  | scanLabel (pool scanState : String)
  | sumLabel (pool : String) (vs_state vs_aux : Nat) (desc : String)
  | vdevLabel (pool desc : String)
  | leLabel (pool desc : String) (le : LeBound)
deriving DecidableEq, Repr

/-- One line of stdout: a HELP comment, a TYPE comment, the leading
per-pool comment line, a u64 metric line, or a double metric line. -/
inductive Line where
  | help (name text : String)
  | type (name text : String)
  | comment (text : String)
  | metric (name : String) (label : Option PLabel) (value : Nat)
  | metricD (name : String) (label : Option PLabel) (value : Option Rat)
deriving DecidableEq, Repr

def POOL_MEASUREMENT : String := "zpool_stats"
def SCAN_MEASUREMENT : String := "zpool_scan_stats"
def POOL_LATENCY_MEASUREMENT : String := "zpool_latency"
def POOL_QUEUE_MEASUREMENT : String := "zpool_vdev"
def POOL_IO_SIZE_MEASUREMENT : String := "zpool_req"

/-- minimum latency index 10 = 1024ns -/
def MIN_LAT_INDEX : Nat := 10

/-- minimum size index 9 = 512 bytes -/
def MIN_SIZE_INDEX : Nat := 9

def SIGNIFICANT_BITS : Nat := 52

/-- The mask `(1ULL << SIGNIFICANT_BITS) - 1` of print_prom_u64. -/
def u64_mask : Nat := (1 <<< SIGNIFICANT_BITS) - 1

/-- The global `metric_names` nvlist is modelled as the list of metric
names already recorded, threaded through every printer. -/
abbrev Registry := List String

/-- print_help_type: if the metric name is not yet recorded, print the
HELP line (when help text is given) and the TYPE line (when type text is
given) and record the name; otherwise print nothing. -/
def print_help_type (st : Registry) (metric_name : String)
    (help ty : Option String) : List Line × Registry :=
  if metric_name ∈ st then ([], st)
  else
    ((match help with
      | some h => [Line.help metric_name h]
      | none => []) ++
     (match ty with
      | some t => [Line.type metric_name t]
      | none => []),
     st ++ [metric_name])

/-- print_prom_u64: build the metric name, route through print_help_type,
then print the value masked to the low 52 bits. -/
def print_prom_u64 (st : Registry) (pfx metric : String)
    (label : Option PLabel) (value : Nat) (help ty : Option String) :
    List Line × Registry :=
  let metric_name := pfx ++ "_" ++ metric
  let r := print_help_type st metric_name help ty
  (r.1 ++ [Line.metric metric_name label (value &&& u64_mask)], r.2)

/-- print_prom_d: doubles pass through unimpeded. -/
def print_prom_d (st : Registry) (pfx metric : String)
    (label : Option PLabel) (value : Option Rat) (help ty : Option String) :
    List Line × Registry :=
  let metric_name := pfx ++ "_" ++ metric
  let r := print_help_type st metric_name help ty
  (r.1 ++ [Line.metricD metric_name label value], r.2)

/-- escape_string on the character list: a double quote or backslash is
emitted with a backslash written in front of it (the switch falls through
to the default, which copies the character itself). -/
def escape_chars : List Char → List Char
  | [] => []
  | c :: cs =>
    if c = '"' ∨ c = '\\' then '\\' :: c :: escape_chars cs
    else c :: escape_chars cs

/-- escape_string at the String level. -/
def escape_string (s : String) : String := ⟨escape_chars s.data⟩

mutual

/-- Scans a character list for a double quote or a backslash that is not
escaping the character after it (a trailing lone backslash is also
unescaped). -/
def hasUnescapedSpecial : List Char → Bool
  | [] => false
  | c :: rest =>
    if c = '\\' then hasUnescapedAfterSlash rest
    else if c = '"' then true
    else hasUnescapedSpecial rest

/-- Continuation of hasUnescapedSpecial right after a backslash: the
backslash escapes the next character; at the end of the string it is
itself unescaped. -/
def hasUnescapedAfterSlash : List Char → Bool
  | [] => true
  | _ :: rest2 => hasUnescapedSpecial rest2

end

/-! ## Data model: the snapshot tree handed over by libzfs -/

/-- The fields of vdev_stat_t used by print_summary_stats.
vs_read_bytes / vs_write_bytes stand for vs_bytes[ZIO_TYPE_READ] and
vs_bytes[ZIO_TYPE_WRITE]; likewise for the op counts. -/
structure VStat where
  vs_state : Nat
  vs_aux : Nat
  vs_alloc : Nat
  vs_space : Nat
  vs_read_bytes : Nat
  vs_write_bytes : Nat
  vs_read_ops : Nat
  vs_write_ops : Nat
  vs_read_errors : Nat
  vs_write_errors : Nat
  vs_checksum_errors : Nat
  vs_fragmentation : Nat
deriving DecidableEq, Repr

/-- The ZPOOL_CONFIG_VDEV_STATS_EX nvlist of a node: uint64 arrays keyed
by histogram config name, and uint64 scalars keyed by queue config
name. -/
structure StatsEx where
  histos : List (String × List Nat)
  queues : List (String × Nat)
deriving DecidableEq, Repr

/-- pool_scan_stat_t, the fields read by print_scan_status. -/
structure ScanStat where
  pss_func : Nat
  pss_state : Nat
  pss_start_time : Nat
  pss_end_time : Nat
  pss_to_examine : Nat
  pss_examined : Nat
  pss_issued : Nat
  pss_pass_exam : Nat
  pss_pass_start : Nat
  pss_pass_scrub_pause : Nat
  pss_pass_scrub_spent_paused : Nat
  pss_pass_issued : Nat
  pss_errors : Nat
deriving DecidableEq, Repr

/-- The per-node nvlist content used by the encoders.  A `none` stands
for a failing nvlist lookup of the corresponding key.  The scan stats
(looked up on the root of the vdev tree) are carried here as well. -/
structure VData where
  vdev_type : Option String
  vdev_id : Option Nat
  vdev_path : Option String
  stats : Option VStat
  stats_ex : Option StatsEx
  scan : Option ScanStat
deriving DecidableEq, Repr

/-- The vdev tree (ZPOOL_CONFIG_VDEV_TREE with ZPOOL_CONFIG_CHILDREN):
an empty child list models an absent children array. -/
inductive VTree where
  | mk (data : VData) (children : List VTree)

def VTree.data : VTree → VData
  | .mk d _ => d

def VTree.children : VTree → List VTree
  | .mk _ c => c

/-- A pool as seen through the zpool handle: its name and the vdev tree
of its configuration. -/
structure Pool where
  zpool_name : String
  root : VTree

/-! ## Label builders -/

/-- get_vdev_name: the hierarchical vdev name.  A failing type lookup
yields "unknown"; a failing id lookup yields -1ULL, printed as an
unsigned 64-bit number. -/
def get_vdev_name (nv : VData) (parent_name : Option String) : String :=
  let vdev_type := nv.vdev_type.getD "unknown"
  let vdev_id := nv.vdev_id.getD (2 ^ 64 - 1)
  match parent_name with
  | none => vdev_type
  | some pn => pn ++ "/" ++ vdev_type ++ "-" ++ toString vdev_id

/-- get_vdev_desc: label fragment vdev="name" plus, when a device path is
present, ,path="path".  Note: the path is written into the label verbatim
(the C code does not run it through escape_string). -/
def get_vdev_desc (nv : VData) (parent_name : Option String) : String :=
  let vdev_type := nv.vdev_type.getD "unknown"
  let vdev_id := nv.vdev_id.getD (2 ^ 64 - 1)
  let vdev_value :=
    match parent_name with
    | none => "vdev=\"" ++ vdev_type ++ "\""
    | some pn =>
      "vdev=\"" ++ pn ++ "/" ++ vdev_type ++ "-" ++ toString vdev_id ++ "\""
  let vdev_path_value :=
    match nv.vdev_path with
    | none => ""
    | some p => ",path=\"" ++ p ++ "\""
  vdev_value ++ vdev_path_value

/-- The label fragment get_vdev_desc would produce following §4.1 of the
specification word by word: the device path is escaped before being put
between the quotes.  This definition follows the specification, not the
source, and exists only to be compared with `get_vdev_desc`. -/
def get_vdev_desc_claimed (nv : VData) (parent_name : Option String) : String :=
  let vdev_type := nv.vdev_type.getD "unknown"
  let vdev_id := nv.vdev_id.getD (2 ^ 64 - 1)
  let vdev_value :=
    match parent_name with
    | none => "vdev=\"" ++ vdev_type ++ "\""
    | some pn =>
      "vdev=\"" ++ pn ++ "/" ++ vdev_type ++ "-" ++ toString vdev_id ++ "\""
  let vdev_path_value :=
    match nv.vdev_path with
    | none => ""
    | some p => ",path=\"" ++ escape_string p ++ "\""
  vdev_value ++ vdev_path_value

/-! ## Histogram encoders -/

/-- The ZPOOL_CONFIG_VDEV_*_LAT_HISTO keys iterated by
print_vdev_latency_stats (the trim entry sits behind an #ifdef that is
absent on the targeted ZFS 0.7 line).  The latency metric names are
derived from these key strings themselves. -/
def lat_type : List String :=
  ["vdev_tot_r_lat_histo", "vdev_tot_w_lat_histo",
   "vdev_disk_r_lat_histo", "vdev_disk_w_lat_histo",
   "vdev_sync_r_lat_histo", "vdev_sync_w_lat_histo",
   "vdev_async_r_lat_histo", "vdev_async_w_lat_histo",
   "vdev_scrub_histo"]

/-- The (config key, short name) pairs iterated by
print_vdev_size_stats; the size metric names are derived from the short
names. -/
def size_type : List (String × String) :=
  [("vdev_sync_ind_r_histo", "sync_read_ind"),
   ("vdev_sync_ind_w_histo", "sync_write_ind"),
   ("vdev_async_ind_r_histo", "async_read_ind"),
   ("vdev_async_ind_w_histo", "async_write_ind"),
   ("vdev_ind_scrub_histo", "scrub_read_ind"),
   ("vdev_sync_agg_r_histo", "sync_read_agg"),
   ("vdev_sync_agg_w_histo", "sync_write_agg"),
   ("vdev_async_agg_r_histo", "async_read_agg"),
   ("vdev_async_agg_w_histo", "async_write_agg"),
   ("vdev_agg_scrub_histo", "scrub_read_agg")]

/-- The inner for-loop of print_vdev_latency_stats over one bucket array:
`j` is the current index, `sum` the running cumulative sum.  The
singleton case is the final index (`j == end`): it emits the +Inf bucket,
the _sum line (value 0) and the _count line; a non-final index emits a
finite bucket line exactly when MIN_LAT_INDEX <= j (`j < end` holds by
position). -/
def lat_histo_go (pool desc kind : String) :
    Nat → Nat → List Nat → Registry → List Line × Registry
  | _, _, [], st => ([], st)
  | _j, sum, [a], st =>
    let s := sum + a
    let r1 := print_prom_u64 st POOL_LATENCY_MEASUREMENT
      (kind ++ "_seconds_bucket")
      (some (PLabel.leLabel pool desc LeBound.inf)) s none none
    let r2 := print_prom_u64 r1.2 POOL_LATENCY_MEASUREMENT
      (kind ++ "_seconds_sum")
      (some (PLabel.vdevLabel pool desc)) 0 none none
    let r3 := print_prom_u64 r2.2 POOL_LATENCY_MEASUREMENT
      (kind ++ "_seconds_count")
      (some (PLabel.vdevLabel pool desc)) s none none
    (r1.1 ++ r2.1 ++ r3.1, r3.2)
  | j, sum, a :: b :: rest, st =>
    let s := sum + a
    let r1 :=
      if MIN_LAT_INDEX ≤ j then
        print_prom_u64 st POOL_LATENCY_MEASUREMENT
          (kind ++ "_seconds_bucket")
          (some (PLabel.leLabel pool desc (LeBound.finite j))) s none none
      else ([], st)
    let r2 := lat_histo_go pool desc kind (j + 1) s (b :: rest) r1.2
    (r1.1 ++ r2.1, r2.2)

/-- One iteration of the outer loop of print_vdev_latency_stats: declare
the HELP/TYPE pair for the per-kind metric name, then run the bucket
loop. -/
def print_one_lat_histo (st : Registry) (pool desc kind : String)
    (arr : List Nat) : List Line × Registry :=
  let metric_name := POOL_LATENCY_MEASUREMENT ++ "_" ++ kind ++ "_seconds"
  let r0 := print_help_type st metric_name
    (some "latency distribution") (some "histogram")
  let r1 := lat_histo_go pool desc kind 0 0 arr r0.2
  (r0.1 ++ r1.1, r1.2)

/-- The outer loop of print_vdev_latency_stats: a failing array lookup
aborts with return value 3 (after an error message on stderr, which is
not modelled). -/
def lat_kinds_go (ex : StatsEx) (pool desc : String) :
    List String → Registry → List Line × Registry × Nat
  | [], st => ([], st, 0)
  | k :: ks, st =>
    match ex.histos.lookup k with
    | none => ([], st, 3)
    | some arr =>
      let r1 := print_one_lat_histo st pool desc k arr
      let r2 := lat_kinds_go ex pool desc ks r1.2
      (r1.1 ++ r2.1, r2.2)

/-- print_vdev_latency_stats: a node without the extended-stats nvlist
returns 6; otherwise iterate the latency histogram kinds. -/
def print_vdev_latency_stats (t : VTree) (pool_name : String)
    (parent_name : Option String) (st : Registry) :
    List Line × Registry × Nat :=
  match t.data.stats_ex with
  | none => ([], st, 6)
  | some ex =>
    let vdev_desc := get_vdev_desc t.data parent_name
    lat_kinds_go ex pool_name vdev_desc lat_type st

/-- The inner for-loop of print_vdev_size_stats.  Unlike the latency
loop, the bucket condition is `j >= MIN_SIZE_INDEX && j <= end`, so the
final index also gets a finite bucket line (before its +Inf line). -/
def size_histo_go (pool desc kind : String) :
    Nat → Nat → List Nat → Registry → List Line × Registry
  | _, _, [], st => ([], st)
  | j, sum, [a], st =>
    let s := sum + a
    let r0 :=
      if MIN_SIZE_INDEX ≤ j then
        print_prom_u64 st POOL_IO_SIZE_MEASUREMENT
          (kind ++ "_bytes_bucket")
          (some (PLabel.leLabel pool desc (LeBound.finite j))) s none none
      else ([], st)
    let r1 := print_prom_u64 r0.2 POOL_IO_SIZE_MEASUREMENT
      (kind ++ "_bytes_bucket")
      (some (PLabel.leLabel pool desc LeBound.inf)) s none none
    let r2 := print_prom_u64 r1.2 POOL_IO_SIZE_MEASUREMENT
      (kind ++ "_bytes_sum")
      (some (PLabel.vdevLabel pool desc)) 0 none none
    let r3 := print_prom_u64 r2.2 POOL_IO_SIZE_MEASUREMENT
      (kind ++ "_bytes_count")
      (some (PLabel.vdevLabel pool desc)) s none none
    (r0.1 ++ r1.1 ++ r2.1 ++ r3.1, r3.2)
  | j, sum, a :: b :: rest, st =>
    let s := sum + a
    let r1 :=
      if MIN_SIZE_INDEX ≤ j then
        print_prom_u64 st POOL_IO_SIZE_MEASUREMENT
          (kind ++ "_bytes_bucket")
          (some (PLabel.leLabel pool desc (LeBound.finite j))) s none none
      else ([], st)
    let r2 := size_histo_go pool desc kind (j + 1) s (b :: rest) r1.2
    (r1.1 ++ r2.1, r2.2)

/-- One iteration of the outer loop of print_vdev_size_stats. -/
def print_one_size_histo (st : Registry) (pool desc short : String)
    (arr : List Nat) : List Line × Registry :=
  let metric_name := POOL_IO_SIZE_MEASUREMENT ++ "_" ++ short ++ "_bytes"
  let r0 := print_help_type st metric_name
    (some "I/O request size distribution") (some "histogram")
  let r1 := size_histo_go pool desc short 0 0 arr r0.2
  (r0.1 ++ r1.1, r1.2)

/-- The outer loop of print_vdev_size_stats. -/
def size_kinds_go (ex : StatsEx) (pool desc : String) :
    List (String × String) → Registry → List Line × Registry × Nat
  | [], st => ([], st, 0)
  | (k, short) :: ks, st =>
    match ex.histos.lookup k with
    | none => ([], st, 3)
    | some arr =>
      let r1 := print_one_size_histo st pool desc short arr
      let r2 := size_kinds_go ex pool desc ks r1.2
      (r1.1 ++ r2.1, r2.2)

/-- print_vdev_size_stats. -/
def print_vdev_size_stats (t : VTree) (pool_name : String)
    (parent_name : Option String) (st : Registry) :
    List Line × Registry × Nat :=
  match t.data.stats_ex with
  | none => ([], st, 6)
  | some ex =>
    let vdev_desc := get_vdev_desc t.data parent_name
    size_kinds_go ex pool_name vdev_desc size_type st

/-! ## Queue and summary encoders -/

/-- The (config key, short name) pairs iterated by print_queue_stats. -/
def queue_type : List (String × String) :=
  [("vdev_sync_r_active_queue", "sync_r_active_queue"),
   ("vdev_sync_w_active_queue", "sync_w_active_queue"),
   ("vdev_async_r_active_queue", "async_r_active_queue"),
   ("vdev_async_w_active_queue", "async_w_active_queue"),
   ("vdev_async_scrub_active_queue", "async_scrub_active_queue"),
   ("vdev_sync_r_pend_queue", "sync_r_pend_queue"),
   ("vdev_sync_w_pend_queue", "sync_w_pend_queue"),
   ("vdev_async_r_pend_queue", "async_r_pend_queue"),
   ("vdev_async_w_pend_queue", "async_w_pend_queue"),
   ("vdev_async_scrub_pend_queue", "async_scrub_pend_queue")]

/-- The loop of print_queue_stats: a failing scalar lookup aborts with
return value 3. -/
def queue_kinds_go (ex : StatsEx) (label : Option PLabel) :
    List (String × String) → Registry → List Line × Registry × Nat
  | [], st => ([], st, 0)
  | (k, short) :: ks, st =>
    match ex.queues.lookup k with
    | none => ([], st, 3)
    | some value =>
      let r1 := print_prom_u64 st POOL_QUEUE_MEASUREMENT short label value
        (some "queue depth") (some "gauge")
      let r2 := queue_kinds_go ex label ks r1.2
      (r1.1 ++ r2.1, r2.2)

/-- print_queue_stats: a node without the extended-stats nvlist returns
6; otherwise iterate the queue scalars. -/
def print_queue_stats (t : VTree) (pool_name : String)
    (parent_name : Option String) (st : Registry) :
    List Line × Registry × Nat :=
  match t.data.stats_ex with
  | none => ([], st, 6)
  | some ex =>
    let label := some (PLabel.vdevLabel pool_name
      (get_vdev_desc t.data parent_name))
    queue_kinds_go ex label queue_type st

/-- Emits a list of (metric, value, help, type) quadruples through
print_prom_u64 under one shared measurement name and label. -/
def emit_u64_list (st : Registry) (pfx : String) (label : Option PLabel) :
    List (String × Nat × String × String) → List Line × Registry
  | [] => ([], st)
  | (m, v, h, ty) :: rest =>
    let r1 := print_prom_u64 st pfx m label v (some h) (some ty)
    let r2 := emit_u64_list r1.2 pfx label rest
    (r1.1 ++ r2.1, r2.2)

/-- print_summary_stats: a node whose ZPOOL_CONFIG_VDEV_STATS lookup
fails is silently skipped (return 0). -/
def print_summary_stats (t : VTree) (pool_name : String)
    (parent_name : Option String) (st : Registry) :
    List Line × Registry × Nat :=
  match t.data.stats with
  | none => ([], st, 0)
  | some vs =>
    let vdev_desc := get_vdev_desc t.data parent_name
    let l := some (PLabel.sumLabel pool_name vs.vs_state vs.vs_aux vdev_desc)
    let r := emit_u64_list st POOL_MEASUREMENT l
      [("state", vs.vs_state, "current state, see zfs.h", "gauge"),
       ("aux_state", vs.vs_aux, "auxiliary state, see zfs.h", "gauge"),
       ("alloc_bytes", vs.vs_alloc, "allocated size", "gauge"),
       ("free_bytes", vs.vs_space - vs.vs_alloc, "free space", "gauge"),
       ("size_bytes", vs.vs_space, "pool size", "gauge"),
       ("read_bytes", vs.vs_read_bytes, "read bytes", "counter"),
       ("read_errors", vs.vs_read_errors, "read errors", "counter"),
       ("read_ops", vs.vs_read_ops, "read ops", "counter"),
       ("write_bytes", vs.vs_write_bytes, "write bytes", "counter"),
       ("write_errors", vs.vs_write_errors, "write errors", "counter"),
       ("write_ops", vs.vs_write_ops, "write ops", "counter"),
       ("cksum_errors", vs.vs_checksum_errors, "checksum errors", "counter"),
       ("fragmentation_ratio", vs.vs_fragmentation / 100,
        "free space fragmentation metric", "gauge")]
    (r.1, r.2, 0)

/-! ## Scan status encoder -/

def DSS_SCANNING : Nat := 1

/-- DSS_NUM_STATES of dsl_scan_state (none, scanning, finished,
canceled). -/
def DSS_NUM_STATES : Nat := 4

/-- POOL_SCAN_FUNCS of pool_scan_func (none, scrub, resilver). -/
def POOL_SCAN_FUNCS : Nat := 3

def scan_state_names : List String :=
  ["none", "scanning", "finished", "canceled"]

/-- A C double division: `none` is the non-finite result of dividing by
zero. -/
def fdiv (a b : Rat) : Option Rat :=
  if b = 0 then none else some (a / b)

/-- The percent-done block of print_scan_status.  In the source only the
first assignment is under the `if (ps->pss_to_examine > 0)` (the second
statement is merely indented): issue_pct_done is computed
unconditionally, so it divides by zero when the to-examine counter is
zero. -/
def scan_pcts (scanned issued total : Nat) : Option Rat × Option Rat :=
  let scan_pct_done : Option Rat :=
    if 0 < total then fdiv (100 * (scanned : Rat)) (total : Rat)
    else some 0
  let issue_pct_done : Option Rat := fdiv (100 * (issued : Rat)) (total : Rat)
  (scan_pct_done, issue_pct_done)

/-- The elapsed-seconds computation: an int64 difference, floored to 1
when non-positive. -/
def scan_elapsed (t0 passStart pausedTime : Nat) : Nat :=
  let e : Int := (t0 : Int) - (passStart : Int) - (pausedTime : Int)
  if 0 < e then e.toNat else 1

/-- uint64 subtraction (wraps modulo 2^64), used for `to_issue`. -/
def u64_sub (a b : Nat) : Nat := (a + 2 ^ 64 - b % 2 ^ 64) % 2 ^ 64

/-- The "calculations for this pass" block of print_scan_status.
`pass_scanned` is the value of the local variable of the same name,
which the source never assigns: it is genuinely uninitialized, and the
model therefore takes it as an unconstrained argument.  In the
non-scanning branch both rates are set to 0 and remaining/to_issue to 0;
the final two lines of the block floor a zero rate to 1 in either
branch.  remaining_time uses the issue rate before that flooring. -/
structure ScanCalc where
  scan_rate : Nat
  issue_rate : Nat
  remaining_time : Nat
  to_issue : Nat
deriving DecidableEq, Repr

def scan_calc (scanning : Bool) (now endTime passStart pausedTime : Nat)
    (pass_scanned pass_issued total issued : Nat) : ScanCalc :=
  let r :=
    if scanning then
      let elapsed := scan_elapsed now passStart pausedTime
      let scan_rate := pass_scanned / elapsed
      let issue_rate := pass_issued / elapsed
      let remaining_time :=
        if issue_rate ≠ 0 ∧ issued ≤ total then (total - issued) / issue_rate
        else 2 ^ 64 - 1
      let to_issue := u64_sub total issued
      ScanCalc.mk scan_rate issue_rate remaining_time to_issue
    else
      let _elapsed := scan_elapsed endTime passStart pausedTime
      ScanCalc.mk 0 0 0 0
  { r with
    scan_rate := if r.scan_rate = 0 then 1 else r.scan_rate,
    issue_rate := if r.issue_rate = 0 then 1 else r.issue_rate }

/-- print_scan_status.  `now` models time(NULL), `junk` the uninitialized
local `pass_scanned`.  Absent scan stats, a state code at or above
DSS_NUM_STATES, or a function code at or above POOL_SCAN_FUNCS emit
nothing and return 0 (in particular the state-name table is only indexed
after that guard). -/
def print_scan_status (now junk : Nat) (ps? : Option ScanStat)
    (pool_name : String) (st : Registry) : List Line × Registry × Nat :=
  match ps? with
  | none => ([], st, 0)
  | some ps =>
    if DSS_NUM_STATES ≤ ps.pss_state ∨ POOL_SCAN_FUNCS ≤ ps.pss_func then
      ([], st, 0)
    else
      let scanned := ps.pss_examined
      let issued := ps.pss_issued
      let pass_issued := ps.pss_pass_issued
      let total := ps.pss_to_examine
      let pcts := scan_pcts scanned issued total
      let paused_ts := ps.pss_pass_scrub_pause
      let paused_time := ps.pss_pass_scrub_spent_paused
      let c := scan_calc (ps.pss_state = DSS_SCANNING) now ps.pss_end_time
        ps.pss_pass_start paused_time junk pass_issued total issued
      let l := some (PLabel.scanLabel pool_name
        (scan_state_names.getD ps.pss_state ""))
      let r1 := emit_u64_list st SCAN_MEASUREMENT l
        [("start_ts_seconds", ps.pss_start_time,
          "scan start timestamp (epoch)", "gauge"),
         ("end_ts_seconds", ps.pss_end_time,
          "scan end timestamp (epoch)", "gauge"),
         ("pause_ts_seconds", paused_ts,
          "scan paused at timestamp (epoch)", "gauge"),
         ("paused_seconds", paused_time, "scan pause duration", "gauge"),
         ("remaining_time_seconds", c.remaining_time,
          "estimate of examination time remaining", "gauge"),
         ("errors", ps.pss_errors, "errors detected during scan)", "counter"),
         ("examined_bytes", scanned, "bytes examined", "counter"),
         ("issued_bytes", issued, "bytes issued", "counter"),
         ("examined_pass_bytes", scanned,
          "bytes examined for this pass", "counter"),
         ("issued_pass_bytes", pass_issued,
          "bytes issued for this pass", "counter")]
      let r2 := print_prom_d r1.2 SCAN_MEASUREMENT
        "percent_examined_done_ratio" l pcts.1
        (some "percent of bytes examined") (some "gauge")
      let r3 := print_prom_d r2.2 SCAN_MEASUREMENT
        "percent_issued_done_ratio" l pcts.2
        (some "percent of bytes issued") (some "gauge")
      let r4 := emit_u64_list r3.2 SCAN_MEASUREMENT l
        [("examined_bytes_per_second", c.scan_rate,
          "examination rate over current pass", "gauge"),
         ("issued_bytes_per_second", c.issue_rate,
          "issue rate over current pass", "gauge"),
         ("to_examine_bytes", total, "total bytes to scan", "gauge"),
         ("to_issue_bytes", c.to_issue,
          "bytes remaining to issue", "gauge")]
      (r1.1 ++ r2.1 ++ r3.1 ++ r4.1, r4.2, 0)

/-! ## Tree walk and per-pool driver -/

/-- The type of the per-node stat printers passed to
print_recursive_stats. -/
abbrev StatPrinter :=
  VTree → String → Option String → Registry → List Line × Registry × Nat

mutual

/-- print_recursive_stats: run the printer on this node; a non-zero
return aborts (propagating the error); otherwise, when descending and
children are present, recurse into each child under this node's
hierarchical name and return 0.  The return values of the recursive
calls on the children are discarded by the source. -/
def print_recursive_stats (f : StatPrinter) (t : VTree) (pool_name : String)
    (parent_name : Option String) (descend : Bool) (st : Registry) :
    List Line × Registry × Nat :=
  match t with
  | .mk d ch =>
    let r := f (.mk d ch) pool_name parent_name st
    if r.2.2 ≠ 0 then r
    else if descend && !ch.isEmpty then
      let vdev_name := get_vdev_name d parent_name
      let rc := prs_children f ch pool_name vdev_name descend r.2.1
      (r.1 ++ rc.1, rc.2, 0)
    else (r.1, r.2.1, 0)

/-- The children loop of print_recursive_stats (errors of the recursive
calls are ignored). -/
def prs_children (f : StatPrinter) :
    List VTree → String → String → Bool → Registry → List Line × Registry
  | [], _, _, _, st => ([], st)
  | c :: cs, pool_name, vdev_name, descend, st =>
    let r1 := print_recursive_stats f c pool_name (some vdev_name) descend st
    let r2 := prs_children f cs pool_name vdev_name descend r1.2.1
    (r1.1 ++ r2.1, r2.2)

end

/-- The body of print_stats after the pool-name filter: refresh and the
vdev-tree lookup are assumed to succeed (they concern the external
snapshot acquisition); the root ZPOOL_CONFIG_VDEV_STATS lookup failing
returns 3.  Otherwise: the escaped pool name, the leading comment line,
then the five categories, each executed only while the running error is
0; the final return value is 0 regardless of the error. -/
def print_stats_body (now junk : Nat) (pool : Pool) (st : Registry) :
    List Line × Registry × Nat :=
  match pool.root.data.stats with
  | none => ([], st, 3)
  | some _ =>
    let pool_name := escape_string pool.zpool_name
    let hdr := Line.comment ("### zpool_prometheus stats for " ++ pool_name)
    let r1 := print_recursive_stats print_summary_stats pool.root
      pool_name none true st
    if r1.2.2 ≠ 0 then ([hdr] ++ r1.1, r1.2.1, 0)
    else
    let r2 := print_recursive_stats print_vdev_latency_stats pool.root
      pool_name none true r1.2.1
    if r2.2.2 ≠ 0 then ([hdr] ++ r1.1 ++ r2.1, r2.2.1, 0)
    else
    let r3 := print_recursive_stats print_vdev_size_stats pool.root
      pool_name none true r2.2.1
    if r3.2.2 ≠ 0 then ([hdr] ++ r1.1 ++ r2.1 ++ r3.1, r3.2.1, 0)
    else
    let r4 := print_recursive_stats print_queue_stats pool.root
      pool_name none false r3.2.1
    if r4.2.2 ≠ 0 then ([hdr] ++ r1.1 ++ r2.1 ++ r3.1 ++ r4.1, r4.2.1, 0)
    else
    let r5 := print_scan_status now junk pool.root.data.scan pool_name r4.2.1
    ([hdr] ++ r1.1 ++ r2.1 ++ r3.1 ++ r4.1 ++ r5.1, r5.2.1, 0)

/-- print_stats: the zpool_iter callback, with the optional exact-name
filter applied first. -/
def print_stats (now junk : Nat) (data : Option String) (pool : Pool)
    (st : Registry) : List Line × Registry × Nat :=
  match data with
  | some d =>
    if d = pool.zpool_name then print_stats_body now junk pool st
    else ([], st, 0)
  | none => print_stats_body now junk pool st

/-- zpool_iter: run the callback on each pool in turn; a non-zero
callback return stops the iteration and becomes the overall return value
(the process exit code of main). -/
def zpool_iter (now junk : Nat) (data : Option String) :
    List Pool → Registry → List Line × Registry × Nat
  | [], st => ([], st, 0)
  | p :: ps, st =>
    let r1 := print_stats now junk data p st
    if r1.2.2 ≠ 0 then r1
    else
      let r2 := zpool_iter now junk data ps r1.2.1
      (r1.1 ++ r2.1, r2.2)

/-! ## Observation helpers on emitted line lists -/

/-- The metric name a line declares or carries, if any. -/
def lineName? : Line → Option String
  | .help n _ => some n
  | .type n _ => some n
  | .comment _ => none
  | .metric n _ _ => some n
  | .metricD n _ _ => some n

def isHelpFor (name : String) : Line → Bool
  | .help n _ => n == name
  | _ => false

def isTypeFor (name : String) : Line → Bool
  | .type n _ => n == name
  | _ => false

def isMetricFor (name : String) : Line → Bool
  | .metric n _ _ => n == name
  | .metricD n _ _ => n == name
  | _ => false

/-- Number of HELP lines for a given metric name. -/
def helpCount (name : String) (ls : List Line) : Nat :=
  (ls.filter (isHelpFor name)).length

/-- Number of TYPE lines for a given metric name. -/
def typeCount (name : String) (ls : List Line) : Nat :=
  (ls.filter (isTypeFor name)).length

/-- Number of metric (value-carrying) lines for a given metric name. -/
def metricCount (name : String) (ls : List Line) : Nat :=
  (ls.filter (isMetricFor name)).length

/-- The indices of the finite-boundary histogram bucket lines, in
emission order. -/
def bucketIdxs (ls : List Line) : List Nat :=
  ls.filterMap fun l =>
    match l with
    | .metric _ (some (.leLabel _ _ (.finite j))) _ => some j
    | _ => none

/-- The values on the finite-boundary histogram bucket lines, in
emission order. -/
def bucketVals (ls : List Line) : List Nat :=
  ls.filterMap fun l =>
    match l with
    | .metric _ (some (.leLabel _ _ (.finite _))) v => some v
    | _ => none

/-- The values on the le="+Inf" bucket lines, in emission order. -/
def infVals (ls : List Line) : List Nat :=
  ls.filterMap fun l =>
    match l with
    | .metric _ (some (.leLabel _ _ LeBound.inf)) v => some v
    | _ => none

/-- Whether some line in the list carries a metric name starting with
the given category string (compared on the character lists). -/
def hasCategory (cat : String) (ls : List Line) : Bool :=
  ls.any fun l =>
    match lineName? l with
    | some n => cat.data.isPrefixOf n.data
    | none => false

/-- An arbitrary run of declareOnce-style emissions: each request is a
(metric name, optional help text, optional type text) triple routed
through print_help_type, threading the registry. -/
def runHT (st : Registry) :
    List (String × Option String × Option String) → List Line × Registry
  | [] => ([], st)
  | (n, h, ty) :: rest =>
    let r1 := print_help_type st n h ty
    let r2 := runHT r1.2 rest
    (r1.1 ++ r2.1, r2.2)

/-- Running cumulative sums of a list, starting from s (the sequence of
values the histogram loops accumulate). -/
def csums (s : Nat) : List Nat → List Nat
  | [] => []
  | a :: t => (s + a) :: csums (s + a) t

/-! ## Basic lemmas -/

lemma u64_mask_eq : u64_mask = 2 ^ 52 - 1 := by
  simp [u64_mask, SIGNIFICANT_BITS, Nat.shiftLeft_eq]

lemma and_u64_mask (v : Nat) : v &&& u64_mask = v % 2 ^ 52 := by
  rw [u64_mask_eq]
  exact Nat.and_pow_two_sub_one_eq_mod v 52

lemma print_help_type_snd (st : Registry) (n : String) (h ty : Option String) :
    (print_help_type st n h ty).2 = if n ∈ st then st else st ++ [n] := by
  unfold print_help_type
  split <;> simp_all

lemma print_prom_u64_fst_none (st : Registry) (pfx m : String)
    (lbl : Option PLabel) (v : Nat) :
    (print_prom_u64 st pfx m lbl v none none).1 =
      [Line.metric (pfx ++ "_" ++ m) lbl (v &&& u64_mask)] := by
  simp only [print_prom_u64, print_help_type]
  split <;> simp

/-! ## Extraction lemmas for the histogram observations -/

@[simp] lemma infVals_nil : infVals [] = [] := rfl

@[simp] lemma infVals_append (l1 l2 : List Line) :
    infVals (l1 ++ l2) = infVals l1 ++ infVals l2 := by
  simp [infVals]

@[simp] lemma infVals_cons_inf (n : String) (p d : String) (v : Nat)
    (ls : List Line) :
    infVals (Line.metric n (some (PLabel.leLabel p d LeBound.inf)) v :: ls) =
      v :: infVals ls := rfl

@[simp] lemma infVals_cons_finite (n : String) (p d : String) (j v : Nat)
    (ls : List Line) :
    infVals (Line.metric n (some (PLabel.leLabel p d (LeBound.finite j))) v
      :: ls) = infVals ls := rfl

@[simp] lemma infVals_cons_vdev (n : String) (p d : String) (v : Nat)
    (ls : List Line) :
    infVals (Line.metric n (some (PLabel.vdevLabel p d)) v :: ls) =
      infVals ls := rfl

@[simp] lemma bucketIdxs_nil : bucketIdxs [] = [] := rfl

@[simp] lemma bucketIdxs_append (l1 l2 : List Line) :
    bucketIdxs (l1 ++ l2) = bucketIdxs l1 ++ bucketIdxs l2 := by
  simp [bucketIdxs]

@[simp] lemma bucketIdxs_cons_inf (n : String) (p d : String) (v : Nat)
    (ls : List Line) :
    bucketIdxs (Line.metric n (some (PLabel.leLabel p d LeBound.inf)) v
      :: ls) = bucketIdxs ls := rfl

@[simp] lemma bucketIdxs_cons_finite (n : String) (p d : String) (j v : Nat)
    (ls : List Line) :
    bucketIdxs (Line.metric n (some (PLabel.leLabel p d (LeBound.finite j))) v
      :: ls) = j :: bucketIdxs ls := rfl

@[simp] lemma bucketIdxs_cons_vdev (n : String) (p d : String) (v : Nat)
    (ls : List Line) :
    bucketIdxs (Line.metric n (some (PLabel.vdevLabel p d)) v :: ls) =
      bucketIdxs ls := rfl

@[simp] lemma bucketVals_nil : bucketVals [] = [] := rfl

@[simp] lemma bucketVals_append (l1 l2 : List Line) :
    bucketVals (l1 ++ l2) = bucketVals l1 ++ bucketVals l2 := by
  simp [bucketVals]

@[simp] lemma bucketVals_cons_inf (n : String) (p d : String) (v : Nat)
    (ls : List Line) :
    bucketVals (Line.metric n (some (PLabel.leLabel p d LeBound.inf)) v
      :: ls) = bucketVals ls := rfl

@[simp] lemma bucketVals_cons_finite (n : String) (p d : String) (j v : Nat)
    (ls : List Line) :
    bucketVals (Line.metric n (some (PLabel.leLabel p d (LeBound.finite j))) v
      :: ls) = v :: bucketVals ls := rfl

@[simp] lemma bucketVals_cons_vdev (n : String) (p d : String) (v : Nat)
    (ls : List Line) :
    bucketVals (Line.metric n (some (PLabel.vdevLabel p d)) v :: ls) =
      bucketVals ls := rfl

lemma infVals_print_help_type (st : Registry) (n : String)
    (h ty : Option String) :
    infVals (print_help_type st n h ty).1 = [] := by
  unfold print_help_type
  split
  · rfl
  · cases h <;> cases ty <;> rfl

lemma bucketIdxs_print_help_type (st : Registry) (n : String)
    (h ty : Option String) :
    bucketIdxs (print_help_type st n h ty).1 = [] := by
  unfold print_help_type
  split
  · rfl
  · cases h <;> cases ty <;> rfl

lemma bucketVals_print_help_type (st : Registry) (n : String)
    (h ty : Option String) :
    bucketVals (print_help_type st n h ty).1 = [] := by
  unfold print_help_type
  split
  · rfl
  · cases h <;> cases ty <;> rfl

/-! ## Cumulative-sum facts -/

lemma csums_mem_ge (s : Nat) (l : List Nat) :
    ∀ v ∈ csums s l, s ≤ v := by
  induction l generalizing s with
  | nil => simp [csums]
  | cons a t ih =>
    intro v hv
    simp only [csums, List.mem_cons] at hv
    rcases hv with rfl | hv
    · omega
    · have := ih (s + a) v hv
      omega

lemma csums_mem_le (s : Nat) (l : List Nat) :
    ∀ v ∈ csums s l, v ≤ s + l.sum := by
  induction l generalizing s with
  | nil => simp [csums]
  | cons a t ih =>
    intro v hv
    simp only [csums, List.mem_cons] at hv
    rcases hv with rfl | hv
    · simp only [List.sum_cons]
      omega
    · have := ih (s + a) v hv
      simp only [List.sum_cons]
      omega

lemma csums_pairwise_le (s : Nat) (l : List Nat) :
    List.Pairwise (· ≤ ·) (csums s l) := by
  induction l generalizing s with
  | nil => simp [csums]
  | cons a t ih =>
    simp only [csums, List.pairwise_cons]
    exact ⟨fun v hv => csums_mem_ge (s + a) t v hv, ih (s + a)⟩

/-! ## The latency histogram bucket loop -/

lemma lat_go_infVals (pool desc kind : String) :
    ∀ (arr : List Nat) (j s : Nat) (st : Registry), arr ≠ [] →
      infVals (lat_histo_go pool desc kind j s arr st).1 =
        [(s + arr.sum) &&& u64_mask] := by
  intro arr
  induction arr with
  | nil => intro j s st h; exact absurd rfl h
  | cons a rest ih =>
    intro j s st _
    cases rest with
    | nil =>
      simp [lat_histo_go, print_prom_u64_fst_none]
    | cons b t =>
      have hne : (b :: t : List Nat) ≠ [] := by simp
      simp only [lat_histo_go]
      by_cases hj : MIN_LAT_INDEX ≤ j
      · simp [hj, print_prom_u64_fst_none, ih (j + 1) (s + a) _ hne,
          Nat.add_assoc]
      · simp [hj, ih (j + 1) (s + a) _ hne, Nat.add_assoc]

lemma lat_go_bucketIdxs (pool desc kind : String) :
    ∀ (arr : List Nat) (j s : Nat) (st : Registry), arr ≠ [] →
      bucketIdxs (lat_histo_go pool desc kind j s arr st).1 =
        (List.range' j (arr.length - 1)).filter
          (fun i => decide (MIN_LAT_INDEX ≤ i)) := by
  intro arr
  induction arr with
  | nil => intro j s st h; exact absurd rfl h
  | cons a rest ih =>
    intro j s st _
    cases rest with
    | nil =>
      simp [lat_histo_go, print_prom_u64_fst_none]
    | cons b t =>
      have hne : (b :: t : List Nat) ≠ [] := by simp
      have hlen : (a :: b :: t : List Nat).length - 1 = t.length + 1 := by
        simp
      rw [hlen, List.range'_succ]
      simp only [lat_histo_go]
      by_cases hj : MIN_LAT_INDEX ≤ j
      · simp [hj, print_prom_u64_fst_none, ih (j + 1) (s + a) _ hne,
          List.filter_cons]
      · simp [hj, ih (j + 1) (s + a) _ hne, List.filter_cons]

lemma lat_go_bucketVals_sublist (pool desc kind : String) :
    ∀ (arr : List Nat) (j s : Nat) (st : Registry),
      s + arr.sum < 2 ^ 52 →
      List.Sublist (bucketVals (lat_histo_go pool desc kind j s arr st).1)
        (csums s arr) := by
  intro arr
  induction arr with
  | nil => intro j s st _; simp [lat_histo_go, csums]
  | cons a rest ih =>
    intro j s st hlt
    cases rest with
    | nil =>
      simp [lat_histo_go, print_prom_u64_fst_none, csums]
    | cons b t =>
      have hlt2 : (s + a) + (b :: t).sum < 2 ^ 52 := by
        simp only [List.sum_cons] at hlt ⊢
        omega
      have hmask : (s + a) &&& u64_mask = s + a := by
        rw [and_u64_mask]
        apply Nat.mod_eq_of_lt
        simp only [List.sum_cons] at hlt
        omega
      simp only [lat_histo_go, csums]
      by_cases hj : MIN_LAT_INDEX ≤ j
      · simp only [hj, if_pos, print_prom_u64_fst_none]
        simp only [bucketVals_append, bucketVals_cons_finite, bucketVals_nil,
          List.nil_append, hmask, List.cons_append]
        exact List.Sublist.cons₂ _ (ih (j + 1) (s + a) _ hlt2)
      · simp only [hj, if_neg, ite_false]
        simp only [bucketVals_append, bucketVals_nil, List.nil_append]
        exact List.Sublist.cons _ (ih (j + 1) (s + a) _ hlt2)

/-! ## The request-size histogram bucket loop -/

lemma size_go_infVals (pool desc kind : String) :
    ∀ (arr : List Nat) (j s : Nat) (st : Registry), arr ≠ [] →
      infVals (size_histo_go pool desc kind j s arr st).1 =
        [(s + arr.sum) &&& u64_mask] := by
  intro arr
  induction arr with
  | nil => intro j s st h; exact absurd rfl h
  | cons a rest ih =>
    intro j s st _
    cases rest with
    | nil =>
      by_cases hj : MIN_SIZE_INDEX ≤ j <;>
        simp [size_histo_go, hj, print_prom_u64_fst_none]
    | cons b t =>
      have hne : (b :: t : List Nat) ≠ [] := by simp
      simp only [size_histo_go]
      by_cases hj : MIN_SIZE_INDEX ≤ j
      · simp [hj, print_prom_u64_fst_none, ih (j + 1) (s + a) _ hne,
          Nat.add_assoc]
      · simp [hj, ih (j + 1) (s + a) _ hne, Nat.add_assoc]

lemma size_go_bucketIdxs (pool desc kind : String) :
    ∀ (arr : List Nat) (j s : Nat) (st : Registry), arr ≠ [] →
      bucketIdxs (size_histo_go pool desc kind j s arr st).1 =
        (List.range' j arr.length).filter
          (fun i => decide (MIN_SIZE_INDEX ≤ i)) := by
  intro arr
  induction arr with
  | nil => intro j s st h; exact absurd rfl h
  | cons a rest ih =>
    intro j s st _
    cases rest with
    | nil =>
      by_cases hj : MIN_SIZE_INDEX ≤ j <;>
        simp [size_histo_go, hj, print_prom_u64_fst_none, List.range'_one,
          List.filter_cons]
    | cons b t =>
      have hne : (b :: t : List Nat) ≠ [] := by simp
      have hlen : (a :: b :: t : List Nat).length = t.length + 2 := by simp
      rw [hlen, List.range'_succ]
      simp only [size_histo_go]
      by_cases hj : MIN_SIZE_INDEX ≤ j
      · simp [hj, print_prom_u64_fst_none, ih (j + 1) (s + a) _ hne,
          List.filter_cons]
      · simp [hj, ih (j + 1) (s + a) _ hne, List.filter_cons]

lemma size_go_bucketVals_sublist (pool desc kind : String) :
    ∀ (arr : List Nat) (j s : Nat) (st : Registry),
      s + arr.sum < 2 ^ 52 →
      List.Sublist (bucketVals (size_histo_go pool desc kind j s arr st).1)
        (csums s arr) := by
  intro arr
  induction arr with
  | nil => intro j s st _; simp [size_histo_go, csums]
  | cons a rest ih =>
    intro j s st hlt
    have hmask : (s + a) &&& u64_mask = s + a := by
      rw [and_u64_mask]
      apply Nat.mod_eq_of_lt
      simp only [List.sum_cons] at hlt
      omega
    cases rest with
    | nil =>
      by_cases hj : MIN_SIZE_INDEX ≤ j <;>
        simp [size_histo_go, hj, print_prom_u64_fst_none, csums, hmask]
    | cons b t =>
      have hlt2 : (s + a) + (b :: t).sum < 2 ^ 52 := by
        simp only [List.sum_cons] at hlt ⊢
        omega
      simp only [size_histo_go, csums]
      by_cases hj : MIN_SIZE_INDEX ≤ j
      · simp only [hj, if_pos, print_prom_u64_fst_none]
        simp only [bucketVals_append, bucketVals_cons_finite, bucketVals_nil,
          List.nil_append, hmask, List.cons_append]
        exact List.Sublist.cons₂ _ (ih (j + 1) (s + a) _ hlt2)
      · simp only [hj, if_neg, ite_false]
        simp only [bucketVals_append, bucketVals_nil, List.nil_append]
        exact List.Sublist.cons _ (ih (j + 1) (s + a) _ hlt2)

/-! ## The final +Inf / _sum / _count triple -/

lemma lat_go_last_triple (pool desc kind : String) :
    ∀ (arr : List Nat) (j s : Nat) (st : Registry), arr ≠ [] →
      ∃ pre : List Line,
        (lat_histo_go pool desc kind j s arr st).1 = pre ++
          [Line.metric
             (POOL_LATENCY_MEASUREMENT ++ "_" ++ (kind ++ "_seconds_bucket"))
             (some (PLabel.leLabel pool desc LeBound.inf))
             ((s + arr.sum) % 2 ^ 52),
           Line.metric
             (POOL_LATENCY_MEASUREMENT ++ "_" ++ (kind ++ "_seconds_sum"))
             (some (PLabel.vdevLabel pool desc)) 0,
           Line.metric
             (POOL_LATENCY_MEASUREMENT ++ "_" ++ (kind ++ "_seconds_count"))
             (some (PLabel.vdevLabel pool desc))
             ((s + arr.sum) % 2 ^ 52)] := by
  intro arr
  induction arr with
  | nil => intro j s st h; exact absurd rfl h
  | cons a rest ih =>
    intro j s st _
    cases rest with
    | nil =>
      refine ⟨[], ?_⟩
      simp [lat_histo_go, print_prom_u64_fst_none, and_u64_mask]
    | cons b t =>
      have hne : (b :: t : List Nat) ≠ [] := by simp
      obtain ⟨pre, hpre⟩ := ih (j + 1) (s + a) (if MIN_LAT_INDEX ≤ j then
        (print_prom_u64 st POOL_LATENCY_MEASUREMENT (kind ++ "_seconds_bucket")
          (some (PLabel.leLabel pool desc (LeBound.finite j))) (s + a)
          none none).2 else st) hne
      simp only [lat_histo_go]
      by_cases hj : MIN_LAT_INDEX ≤ j
      · refine ⟨(print_prom_u64 st POOL_LATENCY_MEASUREMENT
          (kind ++ "_seconds_bucket")
          (some (PLabel.leLabel pool desc (LeBound.finite j))) (s + a)
          none none).1 ++ pre, ?_⟩
        simp only [hj, if_pos] at hpre ⊢
        simp [hpre, Nat.add_assoc]
      · refine ⟨pre, ?_⟩
        simp only [hj, if_neg, ite_false] at hpre ⊢
        simp [hpre, Nat.add_assoc]

lemma size_go_last_triple (pool desc kind : String) :
    ∀ (arr : List Nat) (j s : Nat) (st : Registry), arr ≠ [] →
      ∃ pre : List Line,
        (size_histo_go pool desc kind j s arr st).1 = pre ++
          [Line.metric
             (POOL_IO_SIZE_MEASUREMENT ++ "_" ++ (kind ++ "_bytes_bucket"))
             (some (PLabel.leLabel pool desc LeBound.inf))
             ((s + arr.sum) % 2 ^ 52),
           Line.metric
             (POOL_IO_SIZE_MEASUREMENT ++ "_" ++ (kind ++ "_bytes_sum"))
             (some (PLabel.vdevLabel pool desc)) 0,
           Line.metric
             (POOL_IO_SIZE_MEASUREMENT ++ "_" ++ (kind ++ "_bytes_count"))
             (some (PLabel.vdevLabel pool desc))
             ((s + arr.sum) % 2 ^ 52)] := by
  intro arr
  induction arr with
  | nil => intro j s st h; exact absurd rfl h
  | cons a rest ih =>
    intro j s st _
    cases rest with
    | nil =>
      by_cases hj : MIN_SIZE_INDEX ≤ j
      · refine ⟨(print_prom_u64 st POOL_IO_SIZE_MEASUREMENT
          (kind ++ "_bytes_bucket")
          (some (PLabel.leLabel pool desc (LeBound.finite j))) (s + a)
          none none).1, ?_⟩
        simp [size_histo_go, hj, print_prom_u64_fst_none, and_u64_mask]
      · refine ⟨[], ?_⟩
        simp [size_histo_go, hj, print_prom_u64_fst_none, and_u64_mask]
    | cons b t =>
      have hne : (b :: t : List Nat) ≠ [] := by simp
      obtain ⟨pre, hpre⟩ := ih (j + 1) (s + a) (if MIN_SIZE_INDEX ≤ j then
        (print_prom_u64 st POOL_IO_SIZE_MEASUREMENT (kind ++ "_bytes_bucket")
          (some (PLabel.leLabel pool desc (LeBound.finite j))) (s + a)
          none none).2 else st) hne
      simp only [size_histo_go]
      by_cases hj : MIN_SIZE_INDEX ≤ j
      · refine ⟨(print_prom_u64 st POOL_IO_SIZE_MEASUREMENT
          (kind ++ "_bytes_bucket")
          (some (PLabel.leLabel pool desc (LeBound.finite j))) (s + a)
          none none).1 ++ pre, ?_⟩
        simp only [hj, if_pos] at hpre ⊢
        simp [hpre, Nat.add_assoc]
      · refine ⟨pre, ?_⟩
        simp only [hj, if_neg, ite_false] at hpre ⊢
        simp [hpre, Nat.add_assoc]

/-! ## Lifting to the per-histogram encoders -/

lemma print_one_lat_histo_infVals (st : Registry) (pool desc kind : String)
    (arr : List Nat) (h : arr ≠ []) :
    infVals (print_one_lat_histo st pool desc kind arr).1 =
      [arr.sum % 2 ^ 52] := by
  unfold print_one_lat_histo
  simp [infVals_print_help_type, lat_go_infVals pool desc kind arr 0 0 _ h,
    and_u64_mask]

lemma print_one_size_histo_infVals (st : Registry) (pool desc kind : String)
    (arr : List Nat) (h : arr ≠ []) :
    infVals (print_one_size_histo st pool desc kind arr).1 =
      [arr.sum % 2 ^ 52] := by
  unfold print_one_size_histo
  simp [infVals_print_help_type, size_go_infVals pool desc kind arr 0 0 _ h,
    and_u64_mask]

lemma print_one_lat_histo_bucketIdxs (st : Registry) (pool desc kind : String)
    (arr : List Nat) (h : arr ≠ []) :
    bucketIdxs (print_one_lat_histo st pool desc kind arr).1 =
      (List.range (arr.length - 1)).filter
        (fun i => decide (MIN_LAT_INDEX ≤ i)) := by
  unfold print_one_lat_histo
  rw [List.range_eq_range']
  simp [bucketIdxs_print_help_type,
    lat_go_bucketIdxs pool desc kind arr 0 0 _ h]

lemma print_one_size_histo_bucketIdxs (st : Registry) (pool desc kind : String)
    (arr : List Nat) (h : arr ≠ []) :
    bucketIdxs (print_one_size_histo st pool desc kind arr).1 =
      (List.range arr.length).filter
        (fun i => decide (MIN_SIZE_INDEX ≤ i)) := by
  unfold print_one_size_histo
  rw [List.range_eq_range']
  simp [bucketIdxs_print_help_type,
    size_go_bucketIdxs pool desc kind arr 0 0 _ h]

lemma print_one_lat_histo_bucketVals_sublist (st : Registry)
    (pool desc kind : String) (arr : List Nat) (h : arr.sum < 2 ^ 52) :
    List.Sublist (bucketVals (print_one_lat_histo st pool desc kind arr).1)
      (csums 0 arr) := by
  unfold print_one_lat_histo
  have := lat_go_bucketVals_sublist pool desc kind arr 0 0
    (print_help_type st (POOL_LATENCY_MEASUREMENT ++ "_" ++ kind ++
      "_seconds") (some "latency distribution") (some "histogram")).2
    (by simpa using h)
  simpa [bucketVals_print_help_type] using this

lemma print_one_size_histo_bucketVals_sublist (st : Registry)
    (pool desc kind : String) (arr : List Nat) (h : arr.sum < 2 ^ 52) :
    List.Sublist (bucketVals (print_one_size_histo st pool desc kind arr).1)
      (csums 0 arr) := by
  unfold print_one_size_histo
  have := size_go_bucketVals_sublist pool desc kind arr 0 0
    (print_help_type st (POOL_IO_SIZE_MEASUREMENT ++ "_" ++ kind ++
      "_bytes") (some "I/O request size distribution") (some "histogram")).2
    (by simpa using h)
  simpa [bucketVals_print_help_type] using this

/-! ## Claim C4: the 52-bit mask of print_prom_u64 -/

/-- C4 (confirmed): the value printed on the metric line of
print_prom_u64 is the input counter reduced modulo 2^52; in particular
2^52 + 5 prints as 5, and any counter below 2^52 prints unchanged. -/
theorem print_prom_u64_prints_value_mod_2_pow_52 :
    ∀ (st : Registry) (pfx m : String) (lbl : Option PLabel) (v : Nat)
      (h ty : Option String),
      (print_prom_u64 st pfx m lbl v h ty).1.getLast? =
        some (Line.metric (pfx ++ "_" ++ m) lbl (v % 2 ^ 52)) ∧
      (print_prom_u64 st pfx m lbl (2 ^ 52 + 5) h ty).1.getLast? =
        some (Line.metric (pfx ++ "_" ++ m) lbl 5) ∧
      (v < 2 ^ 52 →
        (print_prom_u64 st pfx m lbl v h ty).1.getLast? =
          some (Line.metric (pfx ++ "_" ++ m) lbl v)) := by
  intro st pfx m lbl v h ty
  have base : ∀ w : Nat, (print_prom_u64 st pfx m lbl w h ty).1.getLast? =
      some (Line.metric (pfx ++ "_" ++ m) lbl (w % 2 ^ 52)) := by
    intro w
    simp only [print_prom_u64, and_u64_mask]
    exact List.getLast?_concat _
  refine ⟨base v, ?_, ?_⟩
  · rw [base (2 ^ 52 + 5)]
    norm_num
  · intro hv
    rw [base v, Nat.mod_eq_of_lt hv]

/-- C4 witness: the theorem applied at v = 3 (which is below 2^52). -/
theorem print_prom_u64_prints_value_mod_2_pow_52_witness :
    (3 : Nat) < 2 ^ 52 ∧
    (print_prom_u64 [] "zpool_stats" "m" none 3 none none).1.getLast? =
      some (Line.metric ("zpool_stats" ++ "_" ++ "m") none 3) :=
  ⟨by norm_num,
   (print_prom_u64_prints_value_mod_2_pow_52 [] "zpool_stats" "m" none 3
     none none).2.2 (by norm_num)⟩

/-! ## Registry counting lemmas -/

lemma helpCount_append (name : String) (l1 l2 : List Line) :
    helpCount name (l1 ++ l2) = helpCount name l1 + helpCount name l2 := by
  simp [helpCount]

lemma typeCount_append (name : String) (l1 l2 : List Line) :
    typeCount name (l1 ++ l2) = typeCount name l1 + typeCount name l2 := by
  simp [typeCount]

lemma helpCount_print_help_type (st : Registry) (n : String)
    (h ty : Option String) (name : String) :
    helpCount name (print_help_type st n h ty).1 =
      if n ∈ st then 0 else if n = name ∧ h.isSome then 1 else 0 := by
  unfold print_help_type helpCount
  split
  · simp_all
  · rename_i hmem
    cases h <;> cases ty <;>
      simp [isHelpFor, hmem] <;>
      split_ifs <;>
      simp_all [isHelpFor, List.filter_cons, beq_iff_eq, beq_eq_false_iff_ne]

lemma typeCount_print_help_type (st : Registry) (n : String)
    (h ty : Option String) (name : String) :
    typeCount name (print_help_type st n h ty).1 =
      if n ∈ st then 0 else if n = name ∧ ty.isSome then 1 else 0 := by
  unfold print_help_type typeCount
  split
  · simp_all
  · rename_i hmem
    cases h <;> cases ty <;>
      simp [isTypeFor, hmem] <;>
      split_ifs <;>
      simp_all [isTypeFor, List.filter_cons, beq_iff_eq, beq_eq_false_iff_ne]

lemma runHT_helpCount :
    ∀ (reqs : List (String × Option String × Option String))
      (st : Registry) (name : String),
      helpCount name (runHT st reqs).1 =
        if name ∈ st then 0
        else
          match reqs.find? (fun r => r.1 == name) with
          | some (_, h, _) => if h.isSome then 1 else 0
          | none => 0 := by
  intro reqs
  induction reqs with
  | nil =>
    intro st name
    simp [runHT, helpCount]
  | cons req rest ih =>
    intro st name
    obtain ⟨n, h, ty⟩ := req
    simp only [runHT, helpCount_append, helpCount_print_help_type,
      print_help_type_snd, ih]
    by_cases hmem : name ∈ st
    · by_cases hn : n = name
      · subst hn
        simp [hmem]
      · have hn2 : ¬ name = n := fun e => hn e.symm
        by_cases hn3 : n ∈ st <;>
          simp [hmem, hn, hn2, hn3, List.find?_cons, List.mem_append]
    · by_cases hn : n = name
      · subst hn
        simp [hmem, List.find?_cons]
      · have hbeq : (n == name) = false := by
          simp [beq_eq_false_iff_ne, hn]
        have hn2 : ¬ name = n := fun e => hn e.symm
        by_cases hn3 : n ∈ st <;>
          simp [hmem, hn, hn2, hn3, hbeq, List.find?_cons, List.mem_append]

lemma runHT_typeCount :
    ∀ (reqs : List (String × Option String × Option String))
      (st : Registry) (name : String),
      typeCount name (runHT st reqs).1 =
        if name ∈ st then 0
        else
          match reqs.find? (fun r => r.1 == name) with
          | some (_, _, ty) => if ty.isSome then 1 else 0
          | none => 0 := by
  intro reqs
  induction reqs with
  | nil =>
    intro st name
    simp [runHT, typeCount]
  | cons req rest ih =>
    intro st name
    obtain ⟨n, h, ty⟩ := req
    simp only [runHT, typeCount_append, typeCount_print_help_type,
      print_help_type_snd, ih]
    by_cases hmem : name ∈ st
    · by_cases hn : n = name
      · subst hn
        simp [hmem]
      · have hn2 : ¬ name = n := fun e => hn e.symm
        by_cases hn3 : n ∈ st <;>
          simp [hmem, hn, hn2, hn3, List.find?_cons, List.mem_append]
    · by_cases hn : n = name
      · subst hn
        simp [hmem, List.find?_cons]
      · have hbeq : (n == name) = false := by
          simp [beq_eq_false_iff_ne, hn]
        have hn2 : ¬ name = n := fun e => hn e.symm
        by_cases hn3 : n ∈ st <;>
          simp [hmem, hn, hn2, hn3, hbeq, List.find?_cons, List.mem_append]

/-! ## Shared concrete fixtures -/

/-- An extended-stats block carrying every latency and size histogram
(each a one-bucket array) and every queue scalar. -/
def full_ex : StatsEx :=
  StatsEx.mk
    (lat_type.map (fun k => (k, [0])) ++
     size_type.map (fun p => (p.1, [0])))
    (queue_type.map (fun p => (p.1, 0)))

def ok_vstat : VStat := VStat.mk 0 0 0 0 0 0 0 0 0 0 0 0

/-- A fully populated root node. -/
def ok_data : VData :=
  VData.mk (some "root") (some 0) none (some ok_vstat) (some full_ex) none

/-- A child node missing both the vdev-stats block (a transient skip for
the summary encoder) and the extended-stats block (a mandatory-field
error for the histogram encoders). -/
def bad_child : VData := VData.mk (some "disk") (some 0) none none none none

/-- A single-node healthy pool. -/
def solo_pool : Pool := Pool.mk "p" (VTree.mk ok_data [])

/-- A pool whose root is healthy but whose only child is missing the
extended-stats block. -/
def demo_pool : Pool := Pool.mk "p" (VTree.mk ok_data [VTree.mk bad_child []])

/-! ## Category tracking for the per-pool pipeline -/

/-- Every line of the list that carries a metric name carries one that
starts with the given category string. -/
def CatOnly (cat : String) (ls : List Line) : Prop :=
  ∀ l ∈ ls, ∀ n, lineName? l = some n → ∃ s2, n = cat ++ s2

lemma CatOnly_nil (cat : String) : CatOnly cat [] := by
  intro l hl
  simp at hl

lemma CatOnly_append {cat : String} {l1 l2 : List Line}
    (h1 : CatOnly cat l1) (h2 : CatOnly cat l2) : CatOnly cat (l1 ++ l2) := by
  intro l hl n hn
  rcases List.mem_append.1 hl with h | h
  · exact h1 l h n hn
  · exact h2 l h n hn

lemma CatOnly_comment (cat s : String) : CatOnly cat [Line.comment s] := by
  intro l hl n hn
  simp at hl
  subst hl
  simp [lineName?] at hn

lemma print_prom_u64_CatOnly (st : Registry) (pfx m : String)
    (lbl : Option PLabel) (v : Nat) (h ty : Option String) :
    CatOnly pfx (print_prom_u64 st pfx m lbl v h ty).1 := by
  intro l hl n hn
  refine ⟨"_" ++ m, ?_⟩
  suffices hs : n = pfx ++ "_" ++ m by
    rw [hs, String.append_assoc]
  simp only [print_prom_u64, print_help_type] at hl
  split at hl <;> cases h <;> cases ty <;> simp at hl <;>
    obtain rfl | rfl | rfl := hl <;>
    simp_all [lineName?]

lemma emit_u64_list_CatOnly (pfx : String) (label : Option PLabel) :
    ∀ (items : List (String × Nat × String × String)) (st : Registry),
      CatOnly pfx (emit_u64_list st pfx label items).1
  | [], _ => CatOnly_nil pfx
  | (m, v, h, ty) :: rest, st => by
    simp only [emit_u64_list]
    exact CatOnly_append (print_prom_u64_CatOnly st pfx m label v _ _)
      (emit_u64_list_CatOnly pfx label rest _)

lemma print_summary_stats_CatOnly (t : VTree) (pool : String)
    (parent : Option String) (st : Registry) :
    CatOnly POOL_MEASUREMENT (print_summary_stats t pool parent st).1 := by
  unfold print_summary_stats
  split
  · exact CatOnly_nil _
  · exact emit_u64_list_CatOnly _ _ _ _

mutual

theorem prs_CatOnly (cat : String) (f : StatPrinter)
    (hf : ∀ t pool parent st, CatOnly cat (f t pool parent st).1) :
    ∀ (t : VTree) (pool : String) (parent : Option String) (descend : Bool)
      (st : Registry),
      CatOnly cat (print_recursive_stats f t pool parent descend st).1
  | .mk d ch, pool, parent, descend, st => by
    simp only [print_recursive_stats]
    split
    · exact hf _ _ _ _
    · split
      · exact CatOnly_append (hf _ _ _ _)
          (prs_children_CatOnly cat f hf ch pool _ descend _)
      · exact hf _ _ _ _

theorem prs_children_CatOnly (cat : String) (f : StatPrinter)
    (hf : ∀ t pool parent st, CatOnly cat (f t pool parent st).1) :
    ∀ (ts : List VTree) (pool vname : String) (descend : Bool)
      (st : Registry),
      CatOnly cat (prs_children f ts pool vname descend st).1
  | [], pool, vname, descend, st => by
    simp only [prs_children]
    exact CatOnly_nil cat
  | c :: cs, pool, vname, descend, st => by
    simp only [prs_children]
    exact CatOnly_append
      (prs_CatOnly cat f hf c pool (some vname) descend st)
      (prs_children_CatOnly cat f hf cs pool vname descend _)

end

/-! ## Error-code lemmas for the tree walk and the category encoders -/

lemma print_recursive_stats_err_out (f : StatPrinter) (t : VTree)
    (pool : String) (parent : Option String) (descend : Bool) (st : Registry)
    (he : (f t pool parent st).2.2 ≠ 0) :
    print_recursive_stats f t pool parent descend st = f t pool parent st := by
  cases t with
  | mk d ch =>
    simp only [print_recursive_stats]
    rw [if_pos he]

lemma print_recursive_stats_err_code (f : StatPrinter) (t : VTree)
    (pool : String) (parent : Option String) (descend : Bool) (st : Registry)
    (he : (f t pool parent st).2.2 = 0) :
    (print_recursive_stats f t pool parent descend st).2.2 = 0 := by
  cases t with
  | mk d ch =>
    simp only [print_recursive_stats]
    rw [if_neg (by simp [he])]
    split <;> rfl

lemma print_summary_stats_err (t : VTree) (pool : String)
    (parent : Option String) (st : Registry) :
    (print_summary_stats t pool parent st).2.2 = 0 := by
  unfold print_summary_stats
  split <;> rfl

lemma lat_kinds_go_err (ex : StatsEx) (pool desc : String) :
    ∀ (ks : List String) (st : Registry),
      (∀ k ∈ ks, (ex.histos.lookup k).isSome) →
      (lat_kinds_go ex pool desc ks st).2.2 = 0
  | [], _, _ => rfl
  | k :: ks, st, h => by
    rcases hk : ex.histos.lookup k with _ | arr
    · exact absurd (h k (by simp)) (by simp [hk])
    · simp only [lat_kinds_go, hk]
      exact lat_kinds_go_err ex pool desc ks _
        (fun q hq => h q (List.mem_cons_of_mem k hq))

lemma size_kinds_go_err (ex : StatsEx) (pool desc : String) :
    ∀ (ks : List (String × String)) (st : Registry),
      (∀ q ∈ ks, (ex.histos.lookup q.1).isSome) →
      (size_kinds_go ex pool desc ks st).2.2 = 0
  | [], _, _ => rfl
  | (k, short) :: ks, st, h => by
    rcases hk : ex.histos.lookup k with _ | arr
    · exact absurd (h (k, short) (by simp)) (by simp [hk])
    · simp only [size_kinds_go, hk]
      exact size_kinds_go_err ex pool desc ks _
        (fun q hq => h q (List.mem_cons_of_mem (k, short) hq))

lemma queue_kinds_go_err (ex : StatsEx) (label : Option PLabel) :
    ∀ (ks : List (String × String)) (st : Registry),
      (∀ q ∈ ks, (ex.queues.lookup q.1).isSome) →
      (queue_kinds_go ex label ks st).2.2 = 0
  | [], _, _ => rfl
  | (k, short) :: ks, st, h => by
    rcases hk : ex.queues.lookup k with _ | v
    · exact absurd (h (k, short) (by simp)) (by simp [hk])
    · simp only [queue_kinds_go, hk]
      exact queue_kinds_go_err ex label ks _
        (fun q hq => h q (List.mem_cons_of_mem (k, short) hq))

lemma print_vdev_latency_stats_err (t : VTree) (pool : String)
    (parent : Option String) (st : Registry) (ex : StatsEx)
    (hex : t.data.stats_ex = some ex)
    (hl : ∀ k ∈ lat_type, (ex.histos.lookup k).isSome) :
    (print_vdev_latency_stats t pool parent st).2.2 = 0 := by
  simp only [print_vdev_latency_stats, hex]
  exact lat_kinds_go_err ex pool _ lat_type st hl

lemma print_vdev_size_stats_err (t : VTree) (pool : String)
    (parent : Option String) (st : Registry) (ex : StatsEx)
    (hex : t.data.stats_ex = some ex)
    (hl : ∀ q ∈ size_type, (ex.histos.lookup q.1).isSome) :
    (print_vdev_size_stats t pool parent st).2.2 = 0 := by
  simp only [print_vdev_size_stats, hex]
  exact size_kinds_go_err ex pool _ size_type st hl

lemma print_queue_stats_err (t : VTree) (pool : String)
    (parent : Option String) (st : Registry) (ex : StatsEx)
    (hex : t.data.stats_ex = some ex)
    (hl : ∀ q ∈ queue_type, (ex.queues.lookup q.1).isSome) :
    (print_queue_stats t pool parent st).2.2 = 0 := by
  simp only [print_queue_stats, hex]
  exact queue_kinds_go_err ex _ queue_type st hl

lemma print_stats_body_errcode (now junk : Nat) (p : Pool) (st : Registry)
    (vs : VStat) (hvs : p.root.data.stats = some vs) :
    (print_stats_body now junk p st).2.2 = 0 := by
  simp only [print_stats_body, hvs]
  repeat' first | rfl | split

lemma print_stats_errcode (now junk : Nat) (data : Option String) (p : Pool)
    (st : Registry) (hs : p.root.data.stats.isSome) :
    (print_stats now junk data p st).2.2 = 0 := by
  obtain ⟨vs, hvs⟩ := Option.isSome_iff_exists.1 hs
  unfold print_stats
  cases data with
  | none => exact print_stats_body_errcode now junk p st vs hvs
  | some d =>
    by_cases hd : d = p.zpool_name <;>
      simp [hd, print_stats_body_errcode now junk p st vs hvs]

/-! ## Claim C1: HELP/TYPE deduplication -/

/-- C1 counterexample: in a full run over a healthy pool the metric name
zpool_latency_vdev_tot_r_lat_histo_seconds_bucket appears on a metric
line, yet the output contains zero HELP lines and zero TYPE lines for
that name (its emissions pass NULL help and type to the registry, which
records the name without ever printing the pair), contradicting the
claimed exactly-one. -/
theorem bucket_metric_name_gets_no_help_line :
    metricCount "zpool_latency_vdev_tot_r_lat_histo_seconds_bucket"
      (zpool_iter 0 0 none [solo_pool] []).1 = 1 ∧
    helpCount "zpool_latency_vdev_tot_r_lat_histo_seconds_bucket"
      (zpool_iter 0 0 none [solo_pool] []).1 = 0 ∧
    typeCount "zpool_latency_vdev_tot_r_lat_histo_seconds_bucket"
      (zpool_iter 0 0 none [solo_pool] []).1 = 0 := by
  refine ⟨by decide, by decide, by decide⟩

/-- C1 (corrected): over any run of declareOnce-style emissions, each
metric name receives at most one HELP and at most one TYPE line; the
first emission for a name prints the HELP line precisely when it
supplies help text and the TYPE line precisely when it supplies type
text (recording the name either way), and every subsequent emission for
the same name prints no HELP/TYPE lines. -/
theorem declare_once_prints_at_most_one_pair :
    ∀ (reqs : List (String × Option String × Option String)) (name : String),
      (helpCount name (runHT [] reqs).1 =
        match reqs.find? (fun r => r.1 == name) with
        | some (_, h, _) => if h.isSome then 1 else 0
        | none => 0) ∧
      (typeCount name (runHT [] reqs).1 =
        match reqs.find? (fun r => r.1 == name) with
        | some (_, _, ty) => if ty.isSome then 1 else 0
        | none => 0) ∧
      helpCount name (runHT [] reqs).1 ≤ 1 ∧
      typeCount name (runHT [] reqs).1 ≤ 1 := by
  intro reqs name
  have h1 := runHT_helpCount reqs [] name
  have h2 := runHT_typeCount reqs [] name
  simp only [List.not_mem_nil, if_false] at h1 h2
  refine ⟨h1, h2, ?_, ?_⟩
  · rw [h1]
    rcases hf : reqs.find? (fun r => r.1 == name) with _ | ⟨_, h, _⟩ <;>
      simp only [hf]
    · exact Nat.zero_le 1
    · split_ifs <;> simp
  · rw [h2]
    rcases hf : reqs.find? (fun r => r.1 == name) with _ | ⟨_, _, ty⟩ <;>
      simp only [hf]
    · exact Nat.zero_le 1
    · split_ifs <;> simp

/-! ## Claim C2: +Inf value and bucket monotonicity -/

/-- C2 counterexample: with a bucket array summing to 2^52 the value
printed on the +Inf bucket line of the latency encoder is 0, not the sum
of the entries (the printed value is masked to 52 bits). -/
theorem lat_histo_inf_value_not_sum_at_2_pow_52 :
    infVals (print_one_lat_histo [] "p" "d" "k" [2 ^ 52]).1 = [0] ∧
    ([2 ^ 52] : List Nat).sum = 2 ^ 52 ∧
    infVals (print_one_lat_histo [] "p" "d" "k" [2 ^ 52]).1 ≠
      [([2 ^ 52] : List Nat).sum] := by
  refine ⟨by decide, by decide, by decide⟩

/-- C2 (corrected): the value printed on the +Inf bucket line is the sum
of all bucket entries reduced modulo 2^52 (so it equals the full sum,
including the suppressed low indices, exactly when that sum is below
2^52), and whenever the total is below 2^52 the values printed on the
finite bucket lines are non-decreasing as le increases and never exceed
the +Inf value.  This holds for both the latency and the request-size
encoders. -/
theorem histogram_inf_value_and_monotonicity :
    ∀ (pool desc kind : String) (arr : List Nat) (st1 st2 : Registry),
      arr ≠ [] →
      (infVals (print_one_lat_histo st1 pool desc kind arr).1 =
         [arr.sum % 2 ^ 52] ∧
       infVals (print_one_size_histo st2 pool desc kind arr).1 =
         [arr.sum % 2 ^ 52]) ∧
      (arr.sum < 2 ^ 52 →
        infVals (print_one_lat_histo st1 pool desc kind arr).1 = [arr.sum] ∧
        infVals (print_one_size_histo st2 pool desc kind arr).1 = [arr.sum] ∧
        List.Pairwise (· ≤ ·)
          (bucketVals (print_one_lat_histo st1 pool desc kind arr).1) ∧
        List.Pairwise (· ≤ ·)
          (bucketVals (print_one_size_histo st2 pool desc kind arr).1) ∧
        (∀ v ∈ bucketVals (print_one_lat_histo st1 pool desc kind arr).1,
          v ≤ arr.sum) ∧
        (∀ v ∈ bucketVals (print_one_size_histo st2 pool desc kind arr).1,
          v ≤ arr.sum)) := by
  intro pool desc kind arr st1 st2 hne
  refine ⟨⟨print_one_lat_histo_infVals st1 pool desc kind arr hne,
           print_one_size_histo_infVals st2 pool desc kind arr hne⟩, ?_⟩
  intro hlt
  have hsl := print_one_lat_histo_bucketVals_sublist st1 pool desc kind arr hlt
  have hss := print_one_size_histo_bucketVals_sublist st2 pool desc kind arr hlt
  refine ⟨?_, ?_, ?_, ?_, ?_, ?_⟩
  · rw [print_one_lat_histo_infVals st1 pool desc kind arr hne,
      Nat.mod_eq_of_lt hlt]
  · rw [print_one_size_histo_infVals st2 pool desc kind arr hne,
      Nat.mod_eq_of_lt hlt]
  · exact (csums_pairwise_le 0 arr).sublist hsl
  · exact (csums_pairwise_le 0 arr).sublist hss
  · intro v hv
    have := csums_mem_le 0 arr v (hsl.subset hv)
    omega
  · intro v hv
    have := csums_mem_le 0 arr v (hss.subset hv)
    omega

/-- C2 witness: the amended statement at the array of thirteen ones. -/
theorem histogram_inf_value_and_monotonicity_witness :
    infVals (print_one_lat_histo [] "p" "d" "k" (List.replicate 13 1)).1 =
      [(List.replicate 13 1).sum] ∧
    List.Pairwise (· ≤ ·)
      (bucketVals (print_one_lat_histo [] "p" "d" "k"
        (List.replicate 13 1)).1) :=
  ⟨(((histogram_inf_value_and_monotonicity "p" "d" "k" (List.replicate 13 1)
      [] [] (by decide)).2) (by decide)).1,
   (((histogram_inf_value_and_monotonicity "p" "d" "k" (List.replicate 13 1)
      [] [] (by decide)).2) (by decide)).2.2.1⟩

/-! ## Claim C3: which indices get a finite bucket line -/

/-- C3 counterexample: the request-size encoder emits a finite-boundary
bucket line at the final array index (here 10, for an array of length
11), which the claim says never happens. -/
theorem size_histo_emits_bucket_at_final_index :
    bucketIdxs (print_one_size_histo [] "p" "d" "k"
      (List.replicate 11 0)).1 = [9, 10] ∧
    (List.replicate 11 (0 : Nat)).length - 1 = 10 ∧
    10 ∈ bucketIdxs (print_one_size_histo [] "p" "d" "k"
      (List.replicate 11 0)).1 := by
  refine ⟨by decide, by decide, by decide⟩

/-- C3 (corrected): the latency encoder emits a finite-boundary bucket
line exactly for the indices j with MIN_LAT_INDEX <= j < n-1, as the
claim states; the request-size encoder however uses the condition
j >= MIN_SIZE_INDEX && j <= end, so it emits finite bucket lines exactly
for MIN_SIZE_INDEX <= j <= n-1: the final index gets a finite bucket
line in addition to its +Inf line. -/
theorem histogram_bucket_index_ranges :
    ∀ (pool desc kind : String) (arr : List Nat) (st1 st2 : Registry),
      arr ≠ [] →
      bucketIdxs (print_one_lat_histo st1 pool desc kind arr).1 =
        (List.range (arr.length - 1)).filter
          (fun i => decide (MIN_LAT_INDEX ≤ i)) ∧
      bucketIdxs (print_one_size_histo st2 pool desc kind arr).1 =
        (List.range arr.length).filter
          (fun i => decide (MIN_SIZE_INDEX ≤ i)) := by
  intro pool desc kind arr st1 st2 hne
  exact ⟨print_one_lat_histo_bucketIdxs st1 pool desc kind arr hne,
         print_one_size_histo_bucketIdxs st2 pool desc kind arr hne⟩

/-- C3 witness: the amended statement at an array of length 13. -/
theorem histogram_bucket_index_ranges_witness :
    bucketIdxs (print_one_lat_histo [] "p" "d" "k"
      (List.replicate 13 0)).1 =
      (List.range ((List.replicate 13 (0 : Nat)).length - 1)).filter
        (fun i => decide (MIN_LAT_INDEX ≤ i)) ∧
    bucketIdxs (print_one_size_histo [] "p" "d" "k"
      (List.replicate 13 0)).1 =
      (List.range (List.replicate 13 (0 : Nat)).length).filter
        (fun i => decide (MIN_SIZE_INDEX ≤ i)) :=
  histogram_bucket_index_ranges "p" "d" "k" (List.replicate 13 0) [] []
    (by decide)

/-! ## Claim C9: the final +Inf, _sum, _count lines -/

/-- C9 counterexample: with a bucket array summing to 2^52 the +Inf
bucket line of the request-size encoder carries 0, not the full
cumulative sum. -/
theorem size_histo_inf_value_not_sum_at_2_pow_52 :
    infVals (print_one_size_histo [] "p" "d" "k" [2 ^ 52]).1 = [0] ∧
    ([2 ^ 52] : List Nat).sum = 2 ^ 52 ∧
    infVals (print_one_size_histo [] "p" "d" "k" [2 ^ 52]).1 ≠
      [([2 ^ 52] : List Nat).sum] := by
  refine ⟨by decide, by decide, by decide⟩

/-- C9 (corrected): at the final array index both histogram encoders
emit, in order: the le="+Inf" bucket line carrying the cumulative sum of
all entries reduced modulo 2^52 (the full sum whenever it is below
2^52), then a _sum line whose value is exactly 0, then a _count line
whose value equals the value on the +Inf bucket line. -/
theorem histogram_final_triple :
    ∀ (pool desc kind : String) (arr : List Nat) (st1 st2 : Registry),
      arr ≠ [] →
      (∃ pre : List Line,
        (print_one_lat_histo st1 pool desc kind arr).1 = pre ++
          [Line.metric
             (POOL_LATENCY_MEASUREMENT ++ "_" ++ (kind ++ "_seconds_bucket"))
             (some (PLabel.leLabel pool desc LeBound.inf))
             (arr.sum % 2 ^ 52),
           Line.metric
             (POOL_LATENCY_MEASUREMENT ++ "_" ++ (kind ++ "_seconds_sum"))
             (some (PLabel.vdevLabel pool desc)) 0,
           Line.metric
             (POOL_LATENCY_MEASUREMENT ++ "_" ++ (kind ++ "_seconds_count"))
             (some (PLabel.vdevLabel pool desc))
             (arr.sum % 2 ^ 52)]) ∧
      (∃ pre : List Line,
        (print_one_size_histo st2 pool desc kind arr).1 = pre ++
          [Line.metric
             (POOL_IO_SIZE_MEASUREMENT ++ "_" ++ (kind ++ "_bytes_bucket"))
             (some (PLabel.leLabel pool desc LeBound.inf))
             (arr.sum % 2 ^ 52),
           Line.metric
             (POOL_IO_SIZE_MEASUREMENT ++ "_" ++ (kind ++ "_bytes_sum"))
             (some (PLabel.vdevLabel pool desc)) 0,
           Line.metric
             (POOL_IO_SIZE_MEASUREMENT ++ "_" ++ (kind ++ "_bytes_count"))
             (some (PLabel.vdevLabel pool desc))
             (arr.sum % 2 ^ 52)]) := by
  intro pool desc kind arr st1 st2 hne
  constructor
  · obtain ⟨pre, hpre⟩ := lat_go_last_triple pool desc kind arr 0 0
      (print_help_type st1 (POOL_LATENCY_MEASUREMENT ++ "_" ++ kind ++
        "_seconds") (some "latency distribution") (some "histogram")).2 hne
    refine ⟨(print_help_type st1 (POOL_LATENCY_MEASUREMENT ++ "_" ++ kind ++
      "_seconds") (some "latency distribution") (some "histogram")).1 ++
      pre, ?_⟩
    unfold print_one_lat_histo
    simp [hpre]
  · obtain ⟨pre, hpre⟩ := size_go_last_triple pool desc kind arr 0 0
      (print_help_type st2 (POOL_IO_SIZE_MEASUREMENT ++ "_" ++ kind ++
        "_bytes") (some "I/O request size distribution")
        (some "histogram")).2 hne
    refine ⟨(print_help_type st2 (POOL_IO_SIZE_MEASUREMENT ++ "_" ++ kind ++
      "_bytes") (some "I/O request size distribution")
      (some "histogram")).1 ++ pre, ?_⟩
    unfold print_one_size_histo
    simp [hpre]

/-- C9 witness: the amended statement at the array [1, 2]. -/
theorem histogram_final_triple_witness :
    ∃ pre : List Line,
      (print_one_lat_histo [] "p" "d" "k" [1, 2]).1 = pre ++
        [Line.metric
           (POOL_LATENCY_MEASUREMENT ++ "_" ++ ("k" ++ "_seconds_bucket"))
           (some (PLabel.leLabel "p" "d" LeBound.inf))
           (([1, 2] : List Nat).sum % 2 ^ 52),
         Line.metric
           (POOL_LATENCY_MEASUREMENT ++ "_" ++ ("k" ++ "_seconds_sum"))
           (some (PLabel.vdevLabel "p" "d")) 0,
         Line.metric
           (POOL_LATENCY_MEASUREMENT ++ "_" ++ ("k" ++ "_seconds_count"))
           (some (PLabel.vdevLabel "p" "d"))
           (([1, 2] : List Nat).sum % 2 ^ 52)] :=
  (histogram_final_triple "p" "d" "k" [1, 2] [] [] (by decide)).1

/-! ## Claim C5: the percent-done computation divides by zero -/

/-- C5 (code bug): at bytesToExamine = 0 the issue percent is computed by
a floating division by zero (the source guards only the first of the two
assignments with the if), instead of the 0 the claim states; with a
positive bytesToExamine both ratios follow the claimed formula. -/
theorem scan_pcts_issue_ratio_divides_by_zero :
    scan_pcts 7 5 0 = (some 0, none) ∧
    scan_pcts 7 5 10 = (some 70, some 50) ∧
    (none : Option Rat) ≠ some 0 := by
  refine ⟨?_, ?_, by simp⟩ <;> norm_num [scan_pcts, fdiv]

/-! ## Claim C6: the pass rates -/

/-- C6 (code bug): in the non-scanning branch the emitted issue rate is
the constant 1 (the code sets both rates to 0 and then floors them to 1)
rather than passBytesIssued / elapsed = 100 / 1 = 100 as the claim
states; and in the scanning branch the examine rate depends on the value
of the never-assigned local pass_scanned (modelled by the junk
argument), here 7 versus 9. -/
theorem scan_calc_rates_diverge_from_claim :
    (scan_calc false 0 11 10 0 0 100 0 0).issue_rate = 1 ∧
    (100 : Nat) / scan_elapsed 11 10 0 = 100 ∧ (1 : Nat) ≠ 100 ∧
    (scan_calc true 11 0 10 0 7 100 0 0).scan_rate = 7 ∧
    (scan_calc true 11 0 10 0 9 100 0 0).scan_rate = 9 := by
  decide

/-! ## Claim C10: bogus scan state or function codes -/

/-- C10 (confirmed): a scan status whose state code is at or above
DSS_NUM_STATES or whose function code is at or above POOL_SCAN_FUNCS
makes print_scan_status emit nothing and return 0, exactly as when the
scan status is absent (the state-name table is only indexed after this
guard). -/
theorem print_scan_status_ignores_bogus_codes :
    ∀ (now junk : Nat) (ps : ScanStat) (pool : String) (st : Registry),
      DSS_NUM_STATES ≤ ps.pss_state ∨ POOL_SCAN_FUNCS ≤ ps.pss_func →
      print_scan_status now junk (some ps) pool st = ([], st, 0) ∧
      print_scan_status now junk (some ps) pool st =
        print_scan_status now junk none pool st := by
  intro now junk ps pool st h
  constructor <;> simp [print_scan_status, if_pos h]

/-- C10 witness: a scan status with state code 7 (and function code 0). -/
theorem print_scan_status_ignores_bogus_codes_witness :
    print_scan_status 0 0
      (some (ScanStat.mk 0 7 0 0 0 0 0 0 0 0 0 0 0)) "p" [] = ([], [], 0) ∧
    print_scan_status 0 0
      (some (ScanStat.mk 0 7 0 0 0 0 0 0 0 0 0 0 0)) "p" [] =
      print_scan_status 0 0 none "p" [] :=
  print_scan_status_ignores_bogus_codes 0 0
    (ScanStat.mk 0 7 0 0 0 0 0 0 0 0 0 0 0) "p" [] (Or.inl (by decide))

/-! ## Claim C8: label escaping -/

/-- C8 counterexample: a device path containing a double quote reaches
the label fragment verbatim; the fragment differs from the one the claim
mandates (with the quote prefixed by a backslash). -/
theorem get_vdev_desc_leaves_path_unescaped :
    get_vdev_desc
      (VData.mk (some "disk") (some 0) (some "we\"ird") none none none)
      none = "vdev=\"disk\",path=\"we\"ird\"" ∧
    get_vdev_desc_claimed
      (VData.mk (some "disk") (some 0) (some "we\"ird") none none none)
      none = "vdev=\"disk\",path=\"we\\\"ird\"" ∧
    get_vdev_desc
      (VData.mk (some "disk") (some 0) (some "we\"ird") none none none)
      none ≠
    get_vdev_desc_claimed
      (VData.mk (some "disk") (some 0) (some "we\"ird") none none none)
      none := by
  refine ⟨by decide, by decide, by decide⟩

/-- C8 (corrected): strings that pass through escape_string (the pool
name does) contain no unescaped double quote or backslash afterwards —
in particular the pool name weird"pool yields the escaped text
weird\"pool — but a device path is written into the vdev label fragment
verbatim, without escaping. -/
theorem escape_string_pool_names_but_not_paths :
    (∀ l : List Char, hasUnescapedSpecial (escape_chars l) = false) ∧
    escape_string "weird\"pool" = "weird\\\"pool" ∧
    (∀ (nv : VData) (pn : Option String) (p : String),
      nv.vdev_path = some p →
      get_vdev_desc nv pn =
        get_vdev_desc { nv with vdev_path := none } pn ++
          ",path=\"" ++ p ++ "\"") := by
  refine ⟨?_, by decide, ?_⟩
  · intro l
    induction l with
    | nil => rfl
    | cons c cs ih =>
      by_cases h : c = '"' ∨ c = '\\'
      · simp [escape_chars, h, hasUnescapedSpecial, hasUnescapedAfterSlash, ih]
      · push_neg at h
        simp [escape_chars, h.1, h.2, hasUnescapedSpecial, ih]
  · intro nv pn p hp
    simp [get_vdev_desc, hp, String.append_assoc]

/-- C8 witness: the amended path clause at a concrete node. -/
theorem escape_string_pool_names_but_not_paths_witness :
    get_vdev_desc (VData.mk (some "disk") (some 0) (some "pp") none none none)
      none =
    get_vdev_desc (VData.mk (some "disk") (some 0) none none none none)
      none ++ ",path=\"" ++ "pp" ++ "\"" :=
  escape_string_pool_names_but_not_paths.2.2
    (VData.mk (some "disk") (some 0) (some "pp") none none none) none "pp" rfl

end ZP

namespace ZP

/-! ## Claim C7: per-pool error handling -/

lemma print_stats_body_root_no_ex (now junk : Nat) (p : Pool) (st : Registry)
    (vs : VStat) (hvs : p.root.data.stats = some vs)
    (hex : p.root.data.stats_ex = none) :
    (print_stats_body now junk p st).2.2 = 0 ∧
    CatOnly POOL_MEASUREMENT (print_stats_body now junk p st).1 := by
  have he1 : (print_recursive_stats print_summary_stats p.root
      (escape_string p.zpool_name) none true st).2.2 = 0 :=
    print_recursive_stats_err_code _ _ _ _ _ _
      (print_summary_stats_err _ _ _ _)
  have hlat : ∀ st2 : Registry, print_vdev_latency_stats p.root
      (escape_string p.zpool_name) none st2 = ([], st2, 6) := by
    intro st2
    simp only [print_vdev_latency_stats, hex]
  have hlat2 : print_recursive_stats print_vdev_latency_stats p.root
      (escape_string p.zpool_name) none true
      ((print_recursive_stats print_summary_stats p.root
        (escape_string p.zpool_name) none true st).2.1) =
      ([], (print_recursive_stats print_summary_stats p.root
        (escape_string p.zpool_name) none true st).2.1, 6) := by
    rw [print_recursive_stats_err_out _ _ _ _ _ _ (by rw [hlat]; simp)]
    exact hlat _
  have hbody : print_stats_body now junk p st =
      (Line.comment ("### zpool_prometheus stats for " ++
          escape_string p.zpool_name) ::
        (print_recursive_stats print_summary_stats p.root
          (escape_string p.zpool_name) none true st).1,
       (print_recursive_stats print_summary_stats p.root
         (escape_string p.zpool_name) none true st).2.1, 0) := by
    simp only [print_stats_body, hvs]
    rw [if_neg (by simp [he1]), hlat2]
    simp
  rw [hbody]
  refine ⟨rfl, ?_⟩
  intro l hl n hn
  rcases List.mem_cons.1 hl with rfl | hmem
  · simp [lineName?] at hn
  · exact prs_CatOnly POOL_MEASUREMENT print_summary_stats
      print_summary_stats_CatOnly p.root _ none true st l hmem n hn

lemma print_stats_body_all_categories (now junk : Nat) (p : Pool)
    (st : Registry) (vs : VStat) (hvs : p.root.data.stats = some vs)
    (ex : StatsEx) (hex : p.root.data.stats_ex = some ex)
    (hlat : ∀ k ∈ lat_type, (ex.histos.lookup k).isSome)
    (hsize : ∀ q ∈ size_type, (ex.histos.lookup q.1).isSome)
    (hqueue : ∀ q ∈ queue_type, (ex.queues.lookup q.1).isSome) :
    (print_stats_body now junk p st).2.2 = 0 ∧
    ∃ (reg : Registry) (pre : List Line),
      print_stats_body now junk p st =
        (pre ++ (print_scan_status now junk p.root.data.scan
          (escape_string p.zpool_name) reg).1,
         (print_scan_status now junk p.root.data.scan
           (escape_string p.zpool_name) reg).2.1, 0) := by
  have he1 : ∀ st2 : Registry, (print_recursive_stats print_summary_stats
      p.root (escape_string p.zpool_name) none true st2).2.2 = 0 :=
    fun st2 => print_recursive_stats_err_code _ _ _ _ _ _
      (print_summary_stats_err _ _ _ _)
  have he2 : ∀ st2 : Registry, (print_recursive_stats
      print_vdev_latency_stats p.root (escape_string p.zpool_name) none
      true st2).2.2 = 0 :=
    fun st2 => print_recursive_stats_err_code _ _ _ _ _ _
      (print_vdev_latency_stats_err _ _ _ _ ex hex hlat)
  have he3 : ∀ st2 : Registry, (print_recursive_stats
      print_vdev_size_stats p.root (escape_string p.zpool_name) none
      true st2).2.2 = 0 :=
    fun st2 => print_recursive_stats_err_code _ _ _ _ _ _
      (print_vdev_size_stats_err _ _ _ _ ex hex hsize)
  have he4 : ∀ st2 : Registry, (print_recursive_stats
      print_queue_stats p.root (escape_string p.zpool_name) none
      false st2).2.2 = 0 :=
    fun st2 => print_recursive_stats_err_code _ _ _ _ _ _
      (print_queue_stats_err _ _ _ _ ex hex hqueue)
  refine ⟨print_stats_body_errcode now junk p st vs hvs, ?_⟩
  simp only [print_stats_body, hvs]
  rw [if_neg (by simp [he1]), if_neg (by simp [he2]), if_neg (by simp [he3]),
    if_neg (by simp [he4])]
  exact ⟨_, _, rfl⟩

lemma zpool_iter_all_processed (now junk : Nat) (data : Option String) :
    ∀ (pools : List Pool) (st : Registry),
      (∀ p ∈ pools, p.root.data.stats.isSome) →
      (zpool_iter now junk data pools st).2.2 = 0 ∧
      (∀ q rest, pools = q :: rest →
        (zpool_iter now junk data pools st).1 =
          (print_stats now junk data q st).1 ++
          (zpool_iter now junk data rest
            (print_stats now junk data q st).2.1).1)
  | [], st, _ => by
    refine ⟨rfl, ?_⟩
    intro q rest h
    cases h
  | p :: ps, st, h => by
    have hp := print_stats_errcode now junk data p st (h p (by simp))
    have hrest := zpool_iter_all_processed now junk data ps
      (print_stats now junk data p st).2.1
      (fun q hq => h q (List.mem_cons_of_mem p hq))
    constructor
    · simp only [zpool_iter]
      rw [if_neg (by simp [hp])]
      exact hrest.1
    · intro q rest hqr
      injection hqr with h1 h2
      subst h1
      subst h2
      simp only [zpool_iter]
      rw [if_neg (by simp [hp])]

/-- C7 counterexample: in demo_pool the child node is missing the
mandatory extended-stats block (the latency encoder fails on it with
return value 6), yet the remaining categories for the pool are not
skipped: the output still contains zpool_req lines, and the callback
still returns 0. -/
theorem child_error_does_not_abort_remaining_categories :
    bad_child.stats_ex = none ∧
    (print_vdev_latency_stats (VTree.mk bad_child []) "p"
      (some "root") []).2.2 = 6 ∧
    hasCategory "zpool_req" (print_stats 0 0 none demo_pool []).1 = true ∧
    (print_stats 0 0 none demo_pool []).2.2 = 0 := by
  refine ⟨rfl, by decide, by decide, by decide⟩

/-- C7 (corrected): only an error at the ROOT node aborts the remaining
encoding categories of a pool.  Part 1: a root missing the
extended-stats block makes the run of that pool emit nothing beyond the
comment line and the zpool_stats summary category, with callback result
0.  Part 2: when the root itself carries all mandatory fields, all five
categories run to the end (the output ends with the scan-status
segment), whatever fields the children are missing.  Part 3: the
iteration over pools never stops at such errors: the overall exit code
is 0 and each pool's output is followed by the output for the remaining
pools. -/
theorem pool_error_handling_depends_on_node_position :
    (∀ (now junk : Nat) (p : Pool) (st : Registry) (vs : VStat),
      p.root.data.stats = some vs → p.root.data.stats_ex = none →
      (print_stats_body now junk p st).2.2 = 0 ∧
      CatOnly POOL_MEASUREMENT (print_stats_body now junk p st).1) ∧
    (∀ (now junk : Nat) (p : Pool) (st : Registry) (vs : VStat)
       (ex : StatsEx),
      p.root.data.stats = some vs → p.root.data.stats_ex = some ex →
      (∀ k ∈ lat_type, (ex.histos.lookup k).isSome) →
      (∀ q ∈ size_type, (ex.histos.lookup q.1).isSome) →
      (∀ q ∈ queue_type, (ex.queues.lookup q.1).isSome) →
      (print_stats_body now junk p st).2.2 = 0 ∧
      ∃ (reg : Registry) (pre : List Line),
        print_stats_body now junk p st =
          (pre ++ (print_scan_status now junk p.root.data.scan
            (escape_string p.zpool_name) reg).1,
           (print_scan_status now junk p.root.data.scan
             (escape_string p.zpool_name) reg).2.1, 0)) ∧
    (∀ (now junk : Nat) (data : Option String) (pools : List Pool)
       (st : Registry),
      (∀ p ∈ pools, p.root.data.stats.isSome) →
      (zpool_iter now junk data pools st).2.2 = 0 ∧
      (∀ q rest, pools = q :: rest →
        (zpool_iter now junk data pools st).1 =
          (print_stats now junk data q st).1 ++
          (zpool_iter now junk data rest
            (print_stats now junk data q st).2.1).1)) := by
  refine ⟨?_, ?_, ?_⟩
  · intro now junk p st vs hvs hex
    exact print_stats_body_root_no_ex now junk p st vs hvs hex
  · intro now junk p st vs ex hvs hex h1 h2 h3
    exact print_stats_body_all_categories now junk p st vs hvs ex hex h1 h2 h3
  · intro now junk data pools st h
    exact zpool_iter_all_processed now junk data pools st h

/-- C7 witness: the three parts of the theorem applied at concrete
pools. -/
theorem pool_error_handling_depends_on_node_position_witness :
    ((print_stats_body 0 0 (Pool.mk "p" (VTree.mk (VData.mk (some "root")
        (some 0) none (some ok_vstat) none none) [])) []).2.2 = 0 ∧
      CatOnly POOL_MEASUREMENT (print_stats_body 0 0 (Pool.mk "p"
        (VTree.mk (VData.mk (some "root") (some 0) none (some ok_vstat)
          none none) [])) []).1) ∧
    ((print_stats_body 0 0 solo_pool []).2.2 = 0 ∧
      ∃ (reg : Registry) (pre : List Line),
        print_stats_body 0 0 solo_pool [] =
          (pre ++ (print_scan_status 0 0 solo_pool.root.data.scan
            (escape_string solo_pool.zpool_name) reg).1,
           (print_scan_status 0 0 solo_pool.root.data.scan
             (escape_string solo_pool.zpool_name) reg).2.1, 0)) ∧
    ((zpool_iter 0 0 none [solo_pool] []).2.2 = 0 ∧
      (∀ q rest, [solo_pool] = q :: rest →
        (zpool_iter 0 0 none [solo_pool] []).1 =
          (print_stats 0 0 none q []).1 ++
          (zpool_iter 0 0 none rest (print_stats 0 0 none q []).2.1).1)) :=
  ⟨pool_error_handling_depends_on_node_position.1 0 0
      (Pool.mk "p" (VTree.mk (VData.mk (some "root") (some 0) none
        (some ok_vstat) none none) [])) [] ok_vstat rfl rfl,
   pool_error_handling_depends_on_node_position.2.1 0 0 solo_pool []
      ok_vstat full_ex rfl rfl (by decide) (by decide) (by decide),
   pool_error_handling_depends_on_node_position.2.2 0 0 none [solo_pool] []
      (by decide)⟩

end ZP
